import Mathlib

/-!
Verification development for the WhatsApp civic-report bot
(`whatsapp-bot` variant with per-type deduplication, vehicle reports and
retry scheduling).  JavaScript strings are embedded as lists of
characters, JS `Map`s as insertion-ordered association lists, timestamps
(`Date.now()`) as integers, and the asynchronous pieces (queue worker,
debounce timers, retry timeouts) as explicit traces or transition systems.
External collaborators (the LLM extractor, the submission API, the chat
transport) appear as oracle parameters; everything else is translated
from the source.
-/

set_option maxRecDepth 100000

namespace Bot

/-- JS strings, embedded as lists of characters. -/
abbrev Str := List Char

/-- Convenience conversion from Lean string literals. -/
def ofString (s : String) : Str := s.data

/-- ASCII digit test: the JS regex class `\d`. -/
def isAsciiDigit (c : Char) : Bool := '0' ≤ c && c ≤ '9'

/-- Whitespace as matched by the JS regex class `\s` (restricted to the
whitespace characters that occur in chat messages). -/
def isWs (c : Char) : Bool := c = ' ' || c = '\t' || c = '\n' || c = '\r'

/-- Lower-casing of a single character, covering ASCII plus the accented
Spanish letters that occur in the bot's alphabet (JS
`String.prototype.toLowerCase`). -/
def lowerChar (c : Char) : Char :=
  if 'A' ≤ c && c ≤ 'Z' then Char.ofNat (c.toNat + 32)
  else match c with
  | 'Á' => 'á' | 'É' => 'é' | 'Í' => 'í' | 'Ó' => 'ó' | 'Ú' => 'ú'
  | 'Ñ' => 'ñ' | 'Ü' => 'ü' | 'À' => 'à' | 'È' => 'è' | 'Ì' => 'ì'
  | 'Ò' => 'ò' | 'Ù' => 'ù' | 'Ä' => 'ä' | 'Ë' => 'ë' | 'Ï' => 'ï'
  | 'Ö' => 'ö' | 'Ç' => 'ç'
  | _ => c

/-- Upper-casing of a single character (JS `String.prototype.toUpperCase`),
same alphabet as `lowerChar`. -/
def upperChar (c : Char) : Char :=
  if 'a' ≤ c && c ≤ 'z' then Char.ofNat (c.toNat - 32)
  else match c with
  | 'á' => 'Á' | 'é' => 'É' | 'í' => 'Í' | 'ó' => 'Ó' | 'ú' => 'Ú'
  | 'ñ' => 'Ñ' | 'ü' => 'Ü' | 'à' => 'À' | 'è' => 'È' | 'ì' => 'Ì'
  | 'ò' => 'Ò' | 'ù' => 'Ù' | 'ä' => 'Ä' | 'ë' => 'Ë' | 'ï' => 'Ï'
  | 'ö' => 'Ö' | 'ç' => 'Ç'
  | _ => c

/-- Base letter of an accented character: the effect of
`normalize('NFD').replace(/[̀-ͯ]/g, '')` on the bot's alphabet
(the combining mark left by NFD decomposition is removed). -/
def accentBase (c : Char) : Char :=
  match c with
  | 'á' => 'a' | 'é' => 'e' | 'í' => 'i' | 'ó' => 'o' | 'ú' => 'u'
  | 'à' => 'a' | 'è' => 'e' | 'ì' => 'i' | 'ò' => 'o' | 'ù' => 'u'
  | 'ä' => 'a' | 'ë' => 'e' | 'ï' => 'i' | 'ö' => 'o' | 'ü' => 'u'
  | 'ñ' => 'n' | 'ç' => 'c'
  | 'Á' => 'A' | 'É' => 'E' | 'Í' => 'I' | 'Ó' => 'O' | 'Ú' => 'U'
  | 'Ñ' => 'N' | 'Ü' => 'U'
  | _ => c

def strToLower (s : Str) : Str := s.map lowerChar

def strToUpper (s : Str) : Str := s.map upperChar

def stripAccents (s : Str) : Str := s.map accentBase

/-- JS `String.prototype.trim`. -/
def strTrim (s : Str) : Str :=
  ((s.dropWhile isWs).reverse.dropWhile isWs).reverse

/-- Does `s` begin with the literal pattern `p`? -/
def headMatches (s p : Str) : Bool :=
  match p, s with
  | [], _ => true
  | _ :: _, [] => false
  | c :: p1, d :: s1 => c == d && headMatches s1 p1

/-- Substring test: JS `String.prototype.includes`. -/
def containsSub (s pat : Str) : Bool :=
  match s with
  | [] => headMatches [] pat
  | _ :: rest => headMatches s pat || containsSub rest pat

def hasDigit (s : Str) : Bool := s.any isAsciiDigit

/-- The conversational lead-in phrases removed by the normalizer, in the
order in which the JS regex alternation
`^(es |es en |esta en |al |no |no es |quise decir |perdon |por favor |dale )`
tries them (the first alternative that matches wins). -/
def convLeads : List Str :=
  [ofString "es ", ofString "es en ", ofString "esta en ", ofString "al ",
   ofString "no ", ofString "no es ", ofString "quise decir ",
   ofString "perdon ", ofString "por favor ", ofString "dale "]

/-- Strip one leading conversational phrase, mirroring
`.replace(/^(es |es en |...)/gi, '')` (anchored at the start, so at most
one replacement occurs). -/
def dropConvLead (s : Str) : Str :=
  match convLeads.find? (fun p => headMatches s p) with
  | some p => s.drop p.length
  | none => s

/-- Does the trailing-comment pattern `(, ?no .*$| no .*$)` match at the
head of `s`? -/
def noTailHere (s : Str) : Bool :=
  headMatches s (ofString ", no ") || headMatches s (ofString ",no ") ||
    headMatches s (ofString " no ")

/-- Remove a trailing ", no ..." / " no ..." comment, mirroring
`.replace(/(, ?no .*$| no .*$)/gi, '')`: the leftmost occurrence starts
the match and `.*$` extends it to the end of the string. -/
def cutNoTail : Str → Str
  | [] => []
  | c :: rest => if noTailHere (c :: rest) then [] else c :: cutNoTail rest

/-- Try to match `\s+al\s+(\d)` at the head of `s` (whose head is known to
be whitespace); returns the captured digit and the remainder after it. -/
def alTail (s : Str) : Option (Char × Str) :=
  match s.dropWhile isWs with
  | 'a' :: 'l' :: c :: rest =>
    if isWs c then
      match (c :: rest).dropWhile isWs with
      | d :: rest2 => if isAsciiDigit d then some (d, rest2) else none
      | [] => none
    else none
  | _ => none

/-- Fuel-indexed worker for `collapseAl`; the fuel (initially the string
length) only serves to make the recursion structural. -/
def collapseAlGo : Nat → Str → Str
  | 0, s => s
  | _ + 1, [] => []
  | fuel + 1, c :: rest =>
    if isWs c then
      match alTail (c :: rest) with
      | some (d, rest2) => ' ' :: d :: collapseAlGo fuel rest2
      | none => c :: collapseAlGo fuel rest
    else c :: collapseAlGo fuel rest

/-- Global replacement `.replace(/\s+al\s+(\d)/gi, ' $1')`: every
non-overlapping occurrence of whitespace--"al"--whitespace--digit is
collapsed to a space followed by the digit. -/
def collapseAl (s : Str) : Str := collapseAlGo s.length s

/-- Character class `[a-z\s\.]` of the final street-and-number pattern
(the input is already lower-cased and accent-stripped at this point). -/
def isStreetChar (c : Char) : Bool :=
  ('a' ≤ c && c ≤ 'z') || isWs c || c = '.'

/-- Try to match `([a-z\s\.]+)\s*(\d+)` at the head of `s`: the greedy
class run must be non-empty and be followed immediately by a digit (any
whitespace before the digits is already part of the class run). -/
def streetNumHere (s : Str) : Option (Str × Str) :=
  let g1 := s.takeWhile isStreetChar
  if g1 = [] then none
  else
    match s.dropWhile isStreetChar with
    | d :: rest => if isAsciiDigit d then some (g1, (d :: rest).takeWhile isAsciiDigit) else none
    | [] => none

/-- Leftmost match of `([a-z\s\.]+)\s*(\d+)`. -/
def streetNumFind : Str → Option (Str × Str)
  | [] => none
  | c :: rest =>
    match streetNumHere (c :: rest) with
    | some r => some r
    | none => streetNumFind rest

/-- Model of `normalizeAddressForComparison` (whatsapp-bot.js): lower-case, strip
accents, drop a conversational lead-in, cut a trailing ", no ..." remark,
collapse "al 1234" to "1234", trim, and finally reduce to
"street-name number" when that pattern occurs. -/
def normalizeAddressForComparison (address : Str) : Str :=
  let s1 := stripAccents (strToLower address)
  let s2 := dropConvLead s1
  let s3 := cutNoTail s2
  let s4 := collapseAl s3
  let s5 := strTrim s4
  match streetNumFind s5 with
  | some (g1, g2) => strTrim g1 ++ ' ' :: g2
  | none => s5

/-! ## Duplicate index (reports.csv) -/

/-- Truthiness of an optional JS string (`undefined`/`null`/`''` are falsy). -/
def truthy (s? : Option Str) : Bool :=
  match s? with
  | some s => !s.isEmpty
  | none => false

/-- JS `a || d` for an optional string `a`. -/
def strOrElse (s? : Option Str) (d : Str) : Str :=
  match s? with
  | some s => if s.isEmpty then d else s
  | none => d

/-- One value of the processed-solicitudes index:
`{ timestamp, solicitudNumber }`. -/
structure Entry where
  timestamp : Int
  solicitudNumber : Str
deriving DecidableEq, Repr

/-- A JS `Map` from string keys to entries, embedded as an
insertion-ordered association list with unique keys. -/
abbrev ProcessedMap := List (Str × Entry)

/-- JS `Map.prototype.get`. -/
def mapGet (m : ProcessedMap) (k : Str) : Option Entry :=
  match m.find? (fun p => p.1 == k) with
  | some p => some p.2
  | none => none

/-- JS `Map.prototype.set`: replace in place when the key exists
(keeping its position), otherwise append. -/
def mapSet : ProcessedMap → Str → Entry → ProcessedMap
  | [], k, v => [(k, v)]
  | p :: rest, k, v =>
    if p.1 == k then (k, v) :: rest else p :: mapSet rest k v

/-- The nine report types the bot knows (`knownTypes` in
`getProcessedSolicitudes`). -/
def knownReportTypes : List Str :=
  [ofString "recoleccion", ofString "barrido", ofString "obstruccion",
   ofString "ocupacion_comercial", ofString "ocupacion_gastronomica",
   ofString "manteros", ofString "puesto_diarios", ofString "puesto_flores",
   ofString "vehiculo_mal_estacionado"]

def vehicleType : Str := ofString "vehiculo_mal_estacionado"

def strRecoleccion : Str := ofString "recoleccion"

/-- A structured view of one data line of `reports.csv`:
`solicitudNumber` is the first CSV field, `address` the quoted field,
`rawType` the field right after the closing quote (`afterQuote[0]`) and
`rawPatente` the one after that (`afterQuote[1]`, absent on short lines);
`timestamp` is the last field.  The byte-level CSV split is outside the
model; the field positions are exactly the ones the loader reads. -/
structure CsvRecord where
  solicitudNumber : Str
  address : Str
  rawType : Str
  rawPatente : Option Str
  timestamp : Int
deriving DecidableEq, Repr

/-- Report type of a CSV record: the field after the address when it is a
known type, `recoleccion` otherwise (format sniffing for old lines). -/
def recordType (r : CsvRecord) : Str :=
  if knownReportTypes.contains r.rawType then r.rawType else strRecoleccion

/-- Patente of a CSV record: only for vehicle records, when the next field
is non-empty and is not a URL; upper-cased. -/
def recordPatente (r : CsvRecord) : Option Str :=
  if recordType r == vehicleType then
    match r.rawPatente with
    | some p =>
      if !p.isEmpty && !headMatches p (ofString "http") then some (strToUpper p)
      else none
    | none => none
  else none

/-- Index key: `normalized_address|reportType` with `|PATENTE` appended for
vehicle records. -/
def entryKey (addr type : Str) (pat : Option Str) : Str :=
  addr ++ ('|' :: type) ++ (match pat with | some p => '|' :: p | none => [])

def recordKey (r : CsvRecord) : Str :=
  entryKey (normalizeAddressForComparison r.address) (recordType r) (recordPatente r)

/-- One iteration of the `getProcessedSolicitudes` loop: keep the most
recent entry for each key (strictly greater timestamp replaces). -/
def loadRecord (m : ProcessedMap) (r : CsvRecord) : ProcessedMap :=
  let key := recordKey r
  match mapGet m key with
  | none => mapSet m key ⟨r.timestamp, r.solicitudNumber⟩
  | some e =>
    if e.timestamp < r.timestamp then mapSet m key ⟨r.timestamp, r.solicitudNumber⟩
    else m

/-- Model of `getProcessedSolicitudes` (whatsapp-bot.js): fold the CSV lines into a
map keyed by `normalized_address|reportType[|PATENTE]`. -/
def getProcessedSolicitudes (lines : List CsvRecord) : ProcessedMap :=
  lines.foldl loadRecord []

/-- JS `String.prototype.split('|')`. -/
def splitOnBar : Str → List Str
  | [] => [[]]
  | c :: rest =>
    if c == '|' then [] :: splitOnBar rest
    else
      match splitOnBar rest with
      | [] => [[c]]
      | s :: ss => (c :: s) :: ss

/-- Twelve hours in milliseconds. -/
def twelveHoursMs : Int := 12 * 60 * 60 * 1000

/-- The loop body of `isRecentDuplicate` for one stored entry: address and
type components must match, a vehicle entry with a conflicting patente is
skipped, and the timestamp must lie within the last 12 hours. -/
def dupMatches (now : Int) (normalizedNew type : Str) (patente : Option Str)
    (p : Str × Entry) : Bool :=
  let parts := splitOnBar p.1
  let storedAddr := parts.getD 0 []
  let storedType? : Option Str := parts.get? 1
  let storedPatente? : Option Str :=
    match parts.get? 2 with
    | some p2 => if p2.isEmpty then none else some p2
    | none => none
  (storedAddr == normalizedNew) && (storedType? == some type) &&
    !(type == vehicleType &&
      (match patente, storedPatente? with
       | some pl, some sp => !pl.isEmpty && strToUpper pl != strToUpper sp
       | _, _ => false)) &&
    decide (p.2.timestamp > now - twelveHoursMs)

/-- Model of `isRecentDuplicate` (whatsapp-bot.js): scan the processed map in
insertion order and return the first fresh entry whose key matches the
candidate's normalized address, report type and (for vehicles) patente. -/
def isRecentDuplicate (now : Int) (address : Str) (reportType : Option Str)
    (processedMap : ProcessedMap) (patente : Option Str) : Option Entry :=
  let normalizedNew := normalizeAddressForComparison address
  let type := strOrElse reportType strRecoleccion
  match processedMap.find? (dupMatches now normalizedNew type patente) with
  | some p => some p.2
  | none => none

/-! ## Candidate classification in the batch processor -/

/-- The placeholder phrases that invalidate an extracted address
(tested case-insensitively). -/
def invalidAddressPhrases : List Str :=
  [ofString "pendiente", ofString "no proporcionada", ofString "información",
   ofString "no especificad", ofString "sin dirección", ofString "falta dirección"]

/-- Model of `isValidAddress` (whatsapp-bot.js): non-empty, contains a digit, is no
placeholder phrase, and has reasonable length. -/
def isValidAddress (address? : Option Str) : Bool :=
  match address? with
  | none => false
  | some address =>
    if address.isEmpty then false
    else if !hasDigit address then false
    else if invalidAddressPhrases.any (fun p => containsSub (strToLower address) p) then false
    else if address.length < 3 || address.length > 100 then false
    else true

/-- A request candidate as returned by the extractor (all fields may be
absent in the raw LLM output). -/
structure ExtractedRequest where
  address : Option Str := none
  reportType : Option Str := none
  containerType : Option Str := none
  schedule : Option Str := none
  situationType : Option Str := none
  patente : Option Str := none
  infractionTime : Option Str := none
  msgIndex : Option Nat := none
  postToX : Bool := false
deriving DecidableEq, Repr

/-- Which bucket the classification loop of `_processPendingMessagesImpl`
(lines around `for (const req of extraction.requests)`) drops a candidate
into. -/
inductive Classification where
  | invalid
  | duplicate (solicitudNumber : Str)
  | needsSchedule
  | needsSituationType
  | needsVehicleInfo (missingField : Str)
  | queueNew
deriving DecidableEq, Repr

def noEspecificado : Str := ofString "No especificado"

/-- The missing-field chain for a vehicle candidate: photos (when fewer
than 2 are in the batch), then patente, then infractionTime, then
patente confirmation. -/
def vehicleMissingField (photoCount : Nat) (req : ExtractedRequest) : Str :=
  if photoCount < 2 then ofString "photos"
  else if !truthy req.patente then ofString "patente"
  else if !truthy req.infractionTime then ofString "infractionTime"
  else ofString "patenteConfirmation"

/-- The candidate-classification loop body of `_processPendingMessagesImpl`:
invalid address, recent duplicate, manteros without schedule, puesto
without situation type, vehicle (always gated), or ready to queue. -/
def classifyRequest (now : Int) (processedMap : ProcessedMap) (photoCount : Nat)
    (req : ExtractedRequest) : Classification :=
  if !isValidAddress req.address then .invalid
  else
    match isRecentDuplicate now (req.address.getD []) req.reportType processedMap req.patente with
    | some e => .duplicate e.solicitudNumber
    | none =>
      if req.reportType == some (ofString "manteros") &&
          (!truthy req.schedule || req.schedule == some noEspecificado) then .needsSchedule
      else if (req.reportType == some (ofString "puesto_diarios") ||
          req.reportType == some (ofString "puesto_flores")) && !truthy req.situationType then
        .needsSituationType
      else if req.reportType == some vehicleType then
        .needsVehicleInfo (vehicleMissingField photoCount req)
      else .queueNew

/-- JS `solicitudNumber.replace(/\//g, '&')`. -/
def slashToAmp (s : Str) : Str := s.map (fun c => if c == '/' then '&' else c)

/-- The detail URL built for a duplicate notice. -/
def dupeUrl (n : Str) : Str :=
  ofString "https://bacolaborativa.buenosaires.gob.ar/detalleSolicitud/" ++
    slashToAmp n ++ ofString "?vieneDeMisSolicitudes=false"

/-- Model of `reportLabelsForDupe` with its `|| 'recolección'` fallback. -/
def reportLabelForDupe (t? : Option Str) : Str :=
  let table : List (Str × Str) :=
    [(ofString "recoleccion", ofString "recolección"),
     (ofString "barrido", ofString "barrido"),
     (ofString "obstruccion", ofString "obstrucción"),
     (ofString "ocupacion_comercial", ofString "ocupación comercial"),
     (ofString "ocupacion_gastronomica", ofString "ocupación gastronómica"),
     (ofString "manteros", ofString "manteros"),
     (ofString "puesto_diarios", ofString "puesto de diarios"),
     (ofString "puesto_flores", ofString "puesto de flores"),
     (ofString "vehiculo_mal_estacionado", ofString "vehículo mal estacionado")]
  match t? with
  | some t =>
    match table.find? (fun p => p.1 == t) with
    | some p => p.2
    | none => ofString "recolección"
  | none => ofString "recolección"

/-- The untrimmed duplicate message, which quotes the prior record's
solicitud number after a `#`. -/
def duplicateNoticeCore (mentionText address : Str) (t? : Option Str) (n : Str) : Str :=
  mentionText ++ ofString " Ya mandé una solicitud de " ++ reportLabelForDupe t? ++
    ofString " para " ++ address ++ ofString " en las últimas 12 horas (#" ++ n ++
    ofString ").\n" ++ dupeUrl n

/-- The message sent to the user for a detected duplicate. -/
def duplicateNotice (mentionText address : Str) (t? : Option Str) (n : Str) : Str :=
  strTrim (duplicateNoticeCore mentionText address t? n)

/-! ## Submission jobs, the global queue and its worker -/

/-- Decimal digits of a natural number (fuel-indexed so that the kernel can
evaluate it); mirrors JS number-to-string interpolation. -/
def natDigitsGo : Nat → Nat → Str
  | 0, _ => []
  | fuel + 1, n =>
    if n < 10 then [Char.ofNat (48 + n)]
    else natDigitsGo fuel (n / 10) ++ [Char.ofNat (48 + n % 10)]

def natDigits (n : Nat) : Str := natDigitsGo (n + 1) n

/-- A submission job as pushed onto `requestQueue` / handed to
`submitRequest`.  Optional fields model JS `null`/`undefined`. -/
structure Request where
  senderId : Str
  senderName : Str := []
  address : Str
  reportType : Option Str := none
  containerType : Option Str := none
  schedule : Option Str := none
  situationType : Option Str := none
  patente : Option Str := none
  infractionTime : Option Str := none
  photo : Option Str := none
  photos : Option (List Str) := none
  retryCount : Option Nat := none
  postToX : Bool := false
deriving DecidableEq, Repr

/-- Observable events of the queue worker. -/
inductive QEvent where
  | submit (r : Request)
  | delay (ms : Nat)
deriving DecidableEq, Repr

/-- The worker loop body of `processQueue`: shift the head, submit it, and
sleep 2000 ms when more jobs remain. -/
def drainQueue : List Request → List QEvent
  | [] => []
  | r :: rest =>
    .submit r :: (if rest.isEmpty then [] else .delay 2000 :: drainQueue rest)

/-- Model of `processQueue` (whatsapp-bot.js), as a function from the scheduler
state `(isProcessingQueue, requestQueue)` to the new state and the trace
of worker events, for a run in which no new job is pushed while the
worker drains (the guard case is exact in every run). -/
def processQueue (isProcessing : Bool) (queue : List Request) :
    Bool × List Request × List QEvent :=
  if isProcessing || queue.isEmpty then (isProcessing, queue, [])
  else (false, [], drainQueue queue)

/-- Program counter of one `processQueue` worker loop: about to test the
`while` condition and shift, awaiting `submitRequest`, or sleeping the
2-second delay. -/
inductive WorkerPhase where
  | popNext
  | awaiting (r : Request)
  | delaying
deriving DecidableEq, Repr

/-- Scheduler state for the interleaved model: the global FIFO, the
`isProcessingQueue` flag and the (multi)set of active worker loops. -/
structure QState where
  queue : List Request
  processing : Bool
  workers : List WorkerPhase
deriving DecidableEq, Repr

/-- Transition labels of the interleaved queue model. -/
inductive QLabel where
  | callNoop
  | callStart
  | beginSubmit (r : Request)
  | endSubmit (r : Request)
  | wake
  | exitLoop
  | push (r : Request)

/-- Interleaved semantics of `processQueue` and the enqueue sites: a call
while the guard holds is a no-op; otherwise the flag is set and a worker
loop starts.  A worker shifts the queue head before awaiting
`submitRequest`, sleeps only when more jobs remain, and clears the flag
when the queue is empty.  `push` is an environment step (a new job is
enqueued during an await point). -/
inductive QStep : QState → QLabel → QState → Prop where
  | callNoop (s : QState) :
      s.processing = true ∨ s.queue = [] → QStep s .callNoop s
  | callStart (s : QState) :
      s.processing = false → s.queue ≠ [] →
      QStep s .callStart ⟨s.queue, true, s.workers ++ [.popNext]⟩
  | beginSubmit (s : QState) (r : Request) (rest : List Request)
      (w1 w2 : List WorkerPhase) :
      s.workers = w1 ++ .popNext :: w2 → s.queue = r :: rest →
      QStep s (.beginSubmit r) ⟨rest, s.processing, w1 ++ .awaiting r :: w2⟩
  | endSubmitDelay (s : QState) (r : Request) (w1 w2 : List WorkerPhase) :
      s.workers = w1 ++ .awaiting r :: w2 → s.queue ≠ [] →
      QStep s (.endSubmit r) ⟨s.queue, s.processing, w1 ++ .delaying :: w2⟩
  | endSubmitNoDelay (s : QState) (r : Request) (w1 w2 : List WorkerPhase) :
      s.workers = w1 ++ .awaiting r :: w2 → s.queue = [] →
      QStep s (.endSubmit r) ⟨s.queue, s.processing, w1 ++ .popNext :: w2⟩
  | wake (s : QState) (w1 w2 : List WorkerPhase) :
      s.workers = w1 ++ .delaying :: w2 →
      QStep s .wake ⟨s.queue, s.processing, w1 ++ .popNext :: w2⟩
  | exitLoop (s : QState) (w1 w2 : List WorkerPhase) :
      s.workers = w1 ++ .popNext :: w2 → s.queue = [] →
      QStep s .exitLoop ⟨[], false, w1 ++ w2⟩
  | push (s : QState) (r : Request) :
      QStep s (.push r) ⟨s.queue ++ [r], s.processing, s.workers⟩

/-- The initial scheduler state of the process. -/
def qInit : QState := ⟨[], false, []⟩

/-- States reachable from `qInit` under the interleaved semantics. -/
inductive QReach : QState → Prop where
  | init : QReach qInit
  | step (s : QState) (l : QLabel) (s2 : QState) :
      QReach s → QStep s l s2 → QReach s2

/-- Number of submissions currently in flight: workers awaiting
`submitRequest`. -/
def inFlightCount (s : QState) : Nat :=
  (s.workers.filter (fun w => match w with | .awaiting _ => true | _ => false)).length

/-- The scheduler invariant: at most one worker loop is ever active, and
the `isProcessingQueue` flag is set exactly while one is. -/
def qInvariant (s : QState) : Prop :=
  s.workers.length ≤ 1 ∧ (s.processing = true ↔ s.workers.length = 1)

/-! ## Retry scheduling -/

/-- The fixed backoff schedule of `scheduleRetry`, in minutes, indexed by
`retryCount`. -/
def retryDelays : List Nat := [5, 50, 500]

/-- Outcome of a `scheduleRetry` call: either exactly one re-submission is
scheduled (one `setTimeout`), or the final-failure notice is sent. -/
inductive RetryOutcome where
  | scheduled (delayMs : Nat) (next : Request) (isRetry : Bool)
  | finalFailure (notice : Str) (deletedPhotos : List Str)
deriving DecidableEq, Repr

def manualFallbackUrl : Str := ofString "https://bacolaborativa.buenosaires.gob.ar"

/-- The message sent by `notifyFinalFailure`, containing the manual
fallback URL. -/
def finalFailureNotice (mentionText : Str) (r : Request) : Str :=
  mentionText ++ ofString " No pude mandar la solicitud para " ++ r.address ++
    ofString " después de 3 intentos. Por favor, intentá de nuevo más tarde o hacelo manualmente en " ++
    manualFallbackUrl

/-- Model of `notifyFinalFailure` (whatsapp-bot.js): send the final notice and
delete the retained photo, if any. -/
def notifyFinalFailure (mentionText : Str) (r : Request) : Str × List Str :=
  (finalFailureNotice mentionText r,
   match r.photo with | some p => [p] | none => [])

/-- Model of `scheduleRetry` (whatsapp-bot.js): below three prior retries, schedule
one re-submission of the job with `retryCount + 1` after
`retryDelays[retryCount]` minutes; at three, notify the final failure
instead. -/
def scheduleRetry (mentionText : Str) (r : Request) : RetryOutcome :=
  let retryCount := r.retryCount.getD 0
  if retryCount ≥ 3 then
    let n := notifyFinalFailure mentionText r
    .finalFailure n.1 n.2
  else
    .scheduled (retryDelays.getD retryCount 0 * 60 * 1000)
      { r with retryCount := some (retryCount + 1) } true

/-! ## The in-memory short-window dedup map and the failure handler -/

/-- Model of `recentlyQueuedAddresses`: key (normalized address, plus patente for
vehicles) to the timestamp at which the job was queued. -/
abbrev DedupMap := List (Str × Int)

def dedupGet (m : DedupMap) (k : Str) : Option Int :=
  match m.find? (fun p => p.1 == k) with
  | some p => some p.2
  | none => none

def dedupHas (m : DedupMap) (k : Str) : Bool := (dedupGet m k).isSome

def dedupSet : DedupMap → Str → Int → DedupMap
  | [], k, v => [(k, v)]
  | p :: rest, k, v =>
    if p.1 == k then (k, v) :: rest else p :: dedupSet rest k v

def dedupDelete (m : DedupMap) (k : Str) : DedupMap :=
  m.filter (fun p => !(p.1 == k))

/-- The key under which a job is registered in the in-memory dedup map
when it is queued (`normalizeAddressForComparison`, with the upper-cased
patente appended for vehicle reports). -/
def queueDedupKey (address : Str) (reportType : Option Str) (patente : Option Str) : Str :=
  let addrKey := normalizeAddressForComparison address
  if reportType == some vehicleType && truthy patente then
    addrKey ++ '|' :: strToUpper (patente.getD [])
  else addrKey

def queueDedupWindowMs : Int := 5 * 60 * 1000

/-- The in-memory dedup check at enqueue time: skip the candidate when its
key was registered within the last 5 minutes. -/
def recentlyQueuedSkip (m : DedupMap) (key : Str) (now : Int) : Bool :=
  match dedupGet m key with
  | some t => decide (now - t < queueDedupWindowMs)
  | none => false

/-- Model of `clearFromDedup` (whatsapp-bot.js): remove the *lower-cased* address
from the dedup map (note: not the normalized key used at insertion). -/
def clearFromDedup (m : DedupMap) (address : Str) : DedupMap :=
  let addrKey := strToLower address
  if dedupHas m addrKey then dedupDelete m addrKey else m

/-- The error markers that classify a failed submission as an
access/transport error. -/
def accessErrorMarkers : List Str :=
  [ofString "password", ofString "login", ofString "selector",
   ofString "timeout", ofString "exceeded"]

/-- Model of `isAccessError` (whatsapp-bot.js): the error text is truthy and
contains one of the markers. -/
def isAccessError (error? : Option Str) : Bool :=
  truthy error? && accessErrorMarkers.any (fun mk => containsSub (error?.getD []) mk)

/-- The notice sent when an access error schedules a retry: names the
address, the wait in minutes and the coming attempt number. -/
def accessRetryNotice (mentionText address : Str) (nextRetryMinutes retryCount : Nat) : Str :=
  mentionText ++ ofString " Hay problemas para acceder a Gestión Colaborativa. Voy a reintentar " ++
    address ++ ofString " en " ++ natDigits nextRetryMinutes ++
    ofString " minutos (intento " ++ natDigits (retryCount + 1) ++ ofString "/3)."

/-- What the non-success branch of `submitRequest` does. -/
inductive FailureOutcome where
  | accessRetry (retry : RetryOutcome) (notice : Option Str)
  | askField (field question : Str)
  | glitchRetry (retry : RetryOutcome) (notice : Str)
  | unrecoverable (notice : Str) (deletedPhotos : List Str)
deriving DecidableEq, Repr

/-- The `else` branch of `submitRequest` handling a failed API result
(`result.success` false, no `needsInfo`): access errors clear the dedup
entry and schedule a retry with a user notice; recognizable missing-field
errors ask the user; two form-glitch patterns clear the dedup entry and
retry; anything else is reported and the photo deleted. -/
def handleSubmitFailure (mentionText : Str) (dedup : DedupMap) (r : Request)
    (error? : Option Str) : DedupMap × FailureOutcome :=
  if isAccessError error? then
    let retryCount := r.retryCount.getD 0
    let nextRetryMinutes := retryDelays.getD retryCount 0
    let dedup2 := clearFromDedup dedup r.address
    if retryCount < 3 then
      (dedup2, .accessRetry (scheduleRetry mentionText r)
        (some (accessRetryNotice mentionText r.address nextRetryMinutes retryCount)))
    else
      (dedup2, .accessRetry (scheduleRetry mentionText r) none)
  else
    let e := strToLower (strOrElse error? [])
    if containsSub e (ofString "foto") || containsSub e (ofString "imagen") ||
        containsSub e (ofString "photo") then
      (dedup, .askField (ofString "photo") (ofString "¿Podés mandarme una foto del problema?"))
    else if containsSub e (ofString "horario") || containsSub e (ofString "días") ||
        containsSub e (ofString "schedule") || containsSub e (ofString "cuándo") then
      (dedup, .askField (ofString "schedule") (ofString "¿Qué días y horarios ocurre el problema?"))
    else if containsSub e (ofString "dirección") || containsSub e (ofString "address") ||
        containsSub e (ofString "ubicación") then
      (dedup, .askField (ofString "address") (ofString "¿Cuál es la dirección exacta?"))
    else if containsSub e (ofString "textarea vacío") || containsSub e (ofString "campo requerido") then
      if containsSub e (ofString "horario") || containsSub e (ofString "días") then
        (dedup, .askField (ofString "schedule") (ofString "¿Qué días y horarios ocurre el problema?"))
      else
        (dedup, .askField (ofString "description") (ofString "¿Podés darme más detalles sobre el problema?"))
    else if containsSub e (ofString "radio sin seleccionar") || containsSub e (ofString "opciones") then
      (clearFromDedup dedup r.address, .glitchRetry (scheduleRetry mentionText r)
        (mentionText ++ ofString " Hubo un problema con el formulario. Voy a reintentar automáticamente."))
    else if containsSub e (ofString "confirmar") || containsSub e (ofString "button") ||
        containsSub e (ofString "atascado") || containsSub e (ofString "clickable") ||
        containsSub e (ofString "element") then
      (clearFromDedup dedup r.address, .glitchRetry (scheduleRetry mentionText r)
        (mentionText ++ ofString " Hubo un problema técnico con el formulario. Voy a reintentar automáticamente."))
    else
      (dedup, .unrecoverable
        (mentionText ++ ofString " No pude completar la solicitud: " ++
          strOrElse error? (ofString "error desconocido") ++ ofString ". ¿Podés darme más detalles?")
        (match r.photo with | some p => [p] | none => []))

/-- The `catch` branch of `submitRequest` (a thrown network exception):
clear the dedup entry and schedule a retry, noticing the user below three
prior retries. -/
def handleSubmitThrown (mentionText : Str) (dedup : DedupMap) (r : Request) :
    DedupMap × FailureOutcome :=
  let dedup2 := clearFromDedup dedup r.address
  let retryCount := r.retryCount.getD 0
  let nextRetryMinutes := retryDelays.getD retryCount 0
  if retryCount < 3 then
    (dedup2, .accessRetry (scheduleRetry mentionText r)
      (some (accessRetryNotice mentionText r.address nextRetryMinutes retryCount)))
  else
    (dedup2, .accessRetry (scheduleRetry mentionText r) none)

/-! ## Inbound messages, the debounce buffer and the vehicle gate -/

/-- One buffered inbound message: text and/or a stored photo path. -/
structure MsgObj where
  text : Option Str := none
  photo : Option Str := none
  timestamp : Int := 0
  msgId : Option Str := none
deriving DecidableEq, Repr

def DEBOUNCE_MS : Nat := 3000

def DEBOUNCE_PHOTO_MS : Nat := 8000

def batchHasPhotos (msgs : List MsgObj) : Bool :=
  msgs.any (fun m => m.photo.isSome)

/-- Model of `pending.messages.some(m => m.text && /\d+/.test(m.text))`. -/
def batchHasTextWithNumbers (msgs : List MsgObj) : Bool :=
  msgs.any (fun m => match m.text with | some t => hasDigit t | none => false)

/-- The smart debounce of `handleMessage`: 8 seconds when the batch has a
photo but no text containing a digit, 3 seconds otherwise. -/
def debounceTime (msgs : List MsgObj) : Nat :=
  if batchHasPhotos msgs && !batchHasTextWithNumbers msgs then DEBOUNCE_PHOTO_MS
  else DEBOUNCE_MS

/-- Per-sender pending-messages buffer (`pendingMessages` values);
`timer` holds the id of the armed debounce timer, if any. -/
structure PendingState where
  messages : List MsgObj
  timer : Option Nat
  hasAskedForAddress : Bool
deriving DecidableEq, Repr

/-- The buffer part of `handleMessage`: get or create the pending buffer,
clear any armed timer, append the message, and arm a fresh timer with the
smart debounce delay computed over the updated batch.  Returns (new
state, cancelled timer id, armed delay). -/
def bufferMessage (st? : Option PendingState) (m : MsgObj) (newTimerId : Nat) :
    PendingState × Option Nat × Nat :=
  let pending := match st? with | some p => p | none => ⟨[], none, false⟩
  let cancelled := pending.timer
  let msgs := pending.messages ++ [m]
  let d := debounceTime msgs
  (⟨msgs, some newTimerId, pending.hasAskedForAddress⟩, cancelled, d)

/-- Run a burst of arrivals through the buffer, handing out fresh timer
ids `nextId, nextId+1, ...`; collects the cancelled timer ids. -/
def runArrivals : List MsgObj → Option PendingState → Nat → Option PendingState × List Nat
  | [], st, _ => (st, [])
  | m :: rest, st, nextId =>
    let step := bufferMessage st m nextId
    let tail := runArrivals rest (some step.1) (nextId + 1)
    (tail.1, (match step.2.1 with | some t => [t] | none => []) ++ tail.2)

/-! ## Vehicle-report gating -/

/-- Model of `photosToSend` in `submitRequest`: the photos array when non-empty,
else the single photo, else nothing. -/
def photosToSend (r : Request) : List Str :=
  match r.photos with
  | some ps =>
    if !ps.isEmpty then ps
    else match r.photo with | some p => [p] | none => []
  | none => match r.photo with | some p => [p] | none => []

def vehicleGateQuestion : Str :=
  ofString "Para reportar un vehículo mal estacionado necesito dos fotos: una de la infracción y otra de la patente. ¿Podés mandar la otra foto?"

/-- What the head of `submitRequest` does with the photos: a vehicle job
with fewer than two photos is refused (the user is asked for the other
photo and the job is parked awaiting `photo`); anything else proceeds to
the API call. -/
inductive SubmitGate where
  | askSecondPhoto (question : Str) (keptPhotos : List Str) (awaitingField : Str)
  | proceed (photosSent : List Str)
deriving DecidableEq, Repr

def submitVehicleGate (r : Request) : SubmitGate :=
  let ps := photosToSend r
  if (r.reportType.getD strRecoleccion) == vehicleType && ps.length < 2 then
    .askSecondPhoto vehicleGateQuestion ps (ofString "photo")
  else .proceed ps

/-- The photo-collection loop for one vehicle report (startup recovery and
the live path share its structure): from `startIdx` (the report's
message) up to `endIdx`, include the primary photo, then photos of
messages without text, and stop at the first photo that carries text. -/
def collectVehiclePhotosGo : Nat → Nat → List MsgObj → Nat → List Str
  | 0, _, _, _ => []
  | fuel + 1, i, messages, startIdx =>
    match messages.get? i with
    | none => collectVehiclePhotosGo fuel (i + 1) messages startIdx
    | some m =>
      match m.photo with
      | none => collectVehiclePhotosGo fuel (i + 1) messages startIdx
      | some ph =>
        if i == startIdx then ph :: collectVehiclePhotosGo fuel (i + 1) messages startIdx
        else
          match m.text with
          | none => ph :: collectVehiclePhotosGo fuel (i + 1) messages startIdx
          | some t =>
            if (strTrim t).isEmpty then ph :: collectVehiclePhotosGo fuel (i + 1) messages startIdx
            else []

def collectVehiclePhotos (messages : List MsgObj) (startIdx endIdx : Nat) : List Str :=
  collectVehiclePhotosGo (endIdx - startIdx) startIdx messages startIdx

/-- Model of `req.msgIndex ? req.msgIndex - 1 : 0` (a zero `msgIndex` is falsy). -/
def msgIndexStart (req : ExtractedRequest) : Nat :=
  match req.msgIndex with
  | some (i + 1) => i
  | _ => 0

/-- Model of `req.msgIndex || 1`. -/
def msgIndexOr1 (req : ExtractedRequest) : Nat :=
  match req.msgIndex with
  | some (i + 1) => i + 1
  | _ => 1

/-- The end of a vehicle's photo window: just before the next vehicle's
`msgIndex`, or the end of the batch. -/
def vehicleWindowEnd (req : ExtractedRequest) (vehicleMsgIndexes : List Nat)
    (msgCount : Nat) : Nat :=
  match vehicleMsgIndexes.find? (fun idx => decide (idx > msgIndexOr1 req)) with
  | some idx => idx - 1
  | none => msgCount

/-- Model of `s? || null` for optional strings (empty strings become `null`). -/
def optOrNull (s? : Option Str) : Option Str :=
  if truthy s? then s? else none

/-- Where the startup-recovery loop (`checkPastMessages`) sends one
extracted request. -/
inductive StartupRoute where
  | skipInvalid
  | skipDuplicate (e : Entry)
  | toVehicleQueue (missingField : Str) (photos : List Str)
  | toRequestQueue (queued : Request)
deriving DecidableEq, Repr

/-- The primary photo chosen for a request: the photo of the message at
`msgIndex - 1` when present, else the most recent photo of the batch. -/
def primaryPhoto (messages : List MsgObj) (req : ExtractedRequest) : Option Str :=
  let fallback := (messages.reverse.find? (fun m => m.photo.isSome)).bind (fun m => m.photo)
  match req.msgIndex with
  | some (i + 1) =>
    match (messages.get? i).bind (fun m => m.photo) with
    | some p => some p
    | none => fallback
  | _ => fallback

/-- The per-request body of the startup-recovery loop: skip invalid
addresses and recent duplicates, register the dedup key, then route a
vehicle request *with a patente* to the per-sender vehicle queue
(awaiting confirmation, or more photos when fewer than two were
collected) — and push everything else, including a vehicle request
without a patente, directly onto `requestQueue`. -/
def startupRouteRequest (now : Int) (processedMap : ProcessedMap) (dedup : DedupMap)
    (messages : List MsgObj) (vehicleMsgIndexes : List Nat) (senderId senderName : Str)
    (req : ExtractedRequest) : DedupMap × StartupRoute :=
  if !isValidAddress req.address then (dedup, .skipInvalid)
  else
    match isRecentDuplicate now (req.address.getD []) req.reportType processedMap req.patente with
    | some e => (dedup, .skipDuplicate e)
    | none =>
      let addrKey := queueDedupKey (req.address.getD []) req.reportType req.patente
      let dedup2 := dedupSet dedup addrKey now
      let photo := primaryPhoto messages req
      let photos :=
        if req.reportType == some vehicleType then
          some (collectVehiclePhotos messages (msgIndexStart req)
            (vehicleWindowEnd req vehicleMsgIndexes messages.length))
        else none
      if req.reportType == some vehicleType && truthy req.patente then
        let ps := photos.getD []
        (dedup2, .toVehicleQueue
          (if ps.length ≥ 2 then ofString "patenteConfirmation" else ofString "photos") ps)
      else
        (dedup2, .toRequestQueue
          { senderId := senderId
            senderName := senderName
            address := req.address.getD []
            reportType := some (strOrElse req.reportType strRecoleccion)
            containerType := some (strOrElse req.containerType (ofString "negro"))
            schedule := optOrNull req.schedule
            patente := optOrNull req.patente
            infractionTime := optOrNull req.infractionTime
            photo := photo
            photos := photos
            postToX := req.postToX })

/-! ## Address corrections -/

/-- What the correction branch of `_processPendingMessagesImpl` did. -/
inductive CorrectionOutcome where
  | mutatedInPlace (oldAddress : Str)
  | queuedSecond (copied : Request)
  | noPending
deriving DecidableEq, Repr

/-- The `isCorrection` branch: find the first queued job of this sender;
when found and the worker is idle, rewrite its address in place; when
found but the worker is running, push a copy with the corrected address;
otherwise do nothing. -/
def applyCorrection (queue : List Request) (isProcessing : Bool) (senderId : Str)
    (correctedAddress : Str) : List Request × CorrectionOutcome :=
  match queue.findIdx? (fun r => r.senderId == senderId) with
  | some idx =>
    match queue[idx]? with
    | some r0 =>
      if !isProcessing then
        (queue.set idx { r0 with address := correctedAddress },
         .mutatedInPlace r0.address)
      else
        (queue ++ [{ r0 with address := correctedAddress }],
         .queuedSecond { r0 with address := correctedAddress })
    | none => (queue, .noPending)
  | none => (queue, .noPending)

/-! ## LLM extraction: JSON recovery and retries -/

/-- The structured result of one extraction call. `requests` is optional
because the raw LLM JSON may omit the field entirely. -/
structure ExtractResult where
  shouldRespond : Bool := false
  response : Option Str := none
  requests : Option (List ExtractedRequest) := none
  isCorrection : Bool := false
  correctedAddress : Option Str := none
  photoValid : Option Bool := none
  awaitingField : Option Str := none
deriving DecidableEq, Repr

/-- Drop everything before the first brace (JS `indexOf('{')`). -/
def dropToBrace : Str → Option Str
  | [] => none
  | c :: rest => if c == '{' then some (c :: rest) else dropToBrace rest

/-- Brace-matching scan of `extractRequests`: starting at the first brace,
count braces until the counter returns to zero and return that span. -/
def braceMatchGo : Str → Int → Str → Option Str
  | [], _, _ => none
  | c :: rest, count, acc =>
    let count2 := count + (if c == '{' then 1 else 0) - (if c == '}' then 1 else 0)
    let acc2 := c :: acc
    if count2 == 0 then some acc2.reverse
    else braceMatchGo rest count2 acc2

/-- Extract the first complete brace-balanced JSON object from the raw
model response. -/
def braceExtract (s : Str) : Option Str :=
  match dropToBrace s with
  | some t => braceMatchGo t 0 []
  | none => none

/-- The generic clarify fallback returned when no JSON object can be
recovered from the response. -/
def clarifyResult : ExtractResult :=
  { shouldRespond := true
    requests := some []
    response := some (ofString "No entendí tu mensaje. ¿Podés decirme la dirección?") }

/-- The retry-later fallback returned when every provider attempt failed. -/
def saturatedResult : ExtractResult :=
  { shouldRespond := true
    requests := some []
    response := some (ofString "Disculpá, el sistema está saturado. Intentá de nuevo en unos minutos.") }

def trashKeywords : List Str :=
  [ofString "basura", ofString "residuos", ofString "mugre",
   ofString "suciedad", ofString "contenedor", ofString "barrido"]

/-- The letter class `[a-záéíóúñ]` of the fallback address pattern
(the scanned text is already lower-cased). -/
def isFallbackLetter (c : Char) : Bool :=
  ('a' ≤ c && c ≤ 'z') || c == 'á' || c == 'é' || c == 'í' || c == 'ó' ||
    c == 'ú' || c == 'ñ'

/-- Match `([a-záéíóúñ]+\s+\d+)` at the head of `s`. -/
def fallbackAddrHere (s : Str) : Option Str :=
  let g1 := s.takeWhile isFallbackLetter
  if g1.isEmpty then none
  else
    let s2 := s.dropWhile isFallbackLetter
    let w := s2.takeWhile isWs
    if w.isEmpty then none
    else
      let s3 := s2.dropWhile isWs
      let d := s3.takeWhile isAsciiDigit
      if d.isEmpty then none else some (g1 ++ w ++ d)

/-- Leftmost match of `([a-záéíóúñ]+\s+\d+)`. -/
def fallbackAddrFind : Str → Option Str
  | [] => none
  | c :: rest =>
    match fallbackAddrHere (c :: rest) with
    | some r => some r
    | none => fallbackAddrFind rest

/-- JS `String.prototype.split(' ')` (single-space separator, empty
segments preserved). -/
def splitOnSpace : Str → List Str
  | [] => [[]]
  | c :: rest =>
    if c == ' ' then [] :: splitOnSpace rest
    else
      match splitOnSpace rest with
      | [] => [[c]]
      | s :: ss => (c :: s) :: ss

def capWord : Str → Str
  | [] => []
  | c :: r => upperChar c :: r

/-- Model of `w.charAt(0).toUpperCase() + w.slice(1)` over the space-split words. -/
def capitalizeWords (s : Str) : Str :=
  List.intercalate [' '] ((splitOnSpace s).map capWord)

/-- The default request fabricated by the photo-invalid fallback. -/
def defaultBarridoRequest (addr : Str) : ExtractedRequest :=
  { address := some (capitalizeWords addr)
    reportType := some (ofString "barrido")
    containerType := some (ofString "negro")
    msgIndex := some 1 }

/-- The photo-invalid fallback inside the successful-parse branch: when the
model returned no requests but marked the photo invalid, and the batch
text mentions trash and contains a street-and-number pattern, fabricate a
default `barrido` request. -/
def photoFallback (pendingTexts : List (Option Str)) (result : ExtractResult) : ExtractResult :=
  if result.requests == some [] && result.photoValid == some false then
    let fullText := strToLower (List.intercalate [' '] (pendingTexts.map (fun t? => t?.getD [])))
    let hasTrashKeywords := trashKeywords.any (fun k => containsSub fullText k)
    match fallbackAddrFind fullText with
    | some addr =>
      if hasTrashKeywords then
        { result with requests := some [defaultBarridoRequest addr], photoValid := some true }
      else result
    | none => result
  else result

/-- Processing of one successful provider response: recover a JSON object
by brace matching and parse it (the JSON parser itself is the `parse`
oracle); on any failure return the clarify fallback. -/
def parseStage (parse : Str → Option ExtractResult) (pendingTexts : List (Option Str))
    (text : Str) : ExtractResult :=
  match braceExtract text with
  | some jsonStr =>
    match parse jsonStr with
    | some result => photoFallback pendingTexts result
    | none => clarifyResult
  | none => clarifyResult

/-- Outcome of one provider attempt: a response text, or a thrown error
with an optional HTTP status and a message. -/
inductive AttemptOutcome where
  | ok (text : Str)
  | err (status : Option Nat) (message : Str)
deriving DecidableEq, Repr

/-- Model of `isRetryable` of the extraction loop: overloaded (529 or an
"Overloaded" message), 500 or 503. -/
def isRetryableErr (status : Option Nat) (message : Str) : Bool :=
  (status == some 529 || containsSub message (ofString "Overloaded")) ||
    status == some 500 || status == some 503

/-- The retry loop of `extractRequests` (`MAX_RETRIES = 3`): starting at
`attempt = 1`, a successful response goes to `parseStage`; a retryable
error below the attempt limit waits `attempt * 5000` ms and retries; any
other error ends the loop with the saturated fallback. Returns the waits
performed and the final result. -/
def extractAttemptsGo (parse : Str → Option ExtractResult) (texts : List (Option Str)) :
    Nat → List AttemptOutcome → List Nat × ExtractResult
  | _, [] => ([], saturatedResult)
  | attempt, o :: rest =>
    match o with
    | .ok text => ([], parseStage parse texts text)
    | .err status msg =>
      if isRetryableErr status msg && attempt < 3 then
        let tail := extractAttemptsGo parse texts (attempt + 1) rest
        (attempt * 5000 :: tail.1, tail.2)
      else ([], saturatedResult)

/-- Model of `extractRequests` against an oracle of provider outcomes (one per
attempt). -/
def extractRequestsRun (parse : Str → Option ExtractResult) (texts : List (Option Str))
    (attempts : List AttemptOutcome) : List Nat × ExtractResult :=
  extractAttemptsGo parse texts 1 attempts

/-! ## Infraction-time interpretation -/

/-- JS `String.prototype.padStart(2, '0')`. -/
def padTwo (s : Str) : Str :=
  List.replicate (2 - s.length) '0' ++ s

/-- After the 1-2 hour digits: consume an optional ':' or '.', then
capture exactly two digits if they follow. -/
def timeMatchAfterHours (hs : Str) (rest : Str) : Str × Option Str :=
  let rest2 :=
    match rest with
    | c :: r => if c == ':' || c == '.' then r else rest
    | [] => []
  match rest2 with
  | a :: b :: _ =>
    if isAsciiDigit a && isAsciiDigit b then (hs, some [a, b]) else (hs, none)
  | _ => (hs, none)

/-- Leftmost match of the code's time regex `(\d{1,2})[:\.]?(\d{2})?`:
the first run of one or two digits is the hour; the minute group is
captured only when two digits follow the optional separator. -/
def timeMatch : Str → Option (Str × Option Str)
  | [] => none
  | c :: rest =>
    if isAsciiDigit c then
      some (match rest with
        | d :: rest2 =>
          if isAsciiDigit d then timeMatchAfterHours [c, d] rest2
          else timeMatchAfterHours [c] rest
        | [] => timeMatchAfterHours [c] [])
    else timeMatch rest

def fmtClock (h m : Nat) : Str :=
  padTwo (natDigits h) ++ ':' :: padTwo (natDigits m)

/-- The `awaitingField === 'infractionTime'` branch of
`_processPendingMessagesImpl`: a text with a digit run is read through
the time regex (missing minutes default to "00"); otherwise a text saying
"ahora" or "recién" stores the current wall-clock time; otherwise the raw
text is stored. -/
def interpretInfractionTime (text : Str) (nowH nowM : Nat) : Str :=
  match timeMatch text with
  | some hm => padTwo hm.1 ++ ':' :: (hm.2.getD (ofString "00"))
  | none =>
    if containsSub (strToLower text) (ofString "ahora") ||
        containsSub (strToLower text) (ofString "recién") then fmtClock nowH nowM
    else text

/-- After the hour digits of the *claimed* regex `HH[:.]?MM`: an optional
separator followed by exactly two mandatory digits. -/
def specMMAfter (s : Str) : Option Str :=
  let s2 :=
    match s with
    | c :: r => if c == ':' || c == '.' then r else s
    | [] => []
  match s2 with
  | a :: b :: _ => if isAsciiDigit a && isAsciiDigit b then some [a, b] else none
  | _ => none

/-- Match the claimed regex `(\d{1,2})[:.]?(\d{2})` at the head of `s`
(greedy two-digit hour first, then the one-digit backtrack). -/
def specHHMMHere (s : Str) : Option (Str × Str) :=
  match s with
  | a :: b :: rest =>
    if isAsciiDigit a then
      if isAsciiDigit b then
        match specMMAfter rest with
        | some mm => some ([a, b], mm)
        | none =>
          match specMMAfter (b :: rest) with
          | some mm => some ([a], mm)
          | none => none
      else
        match specMMAfter (b :: rest) with
        | some mm => some ([a], mm)
        | none => none
    else none
  | _ => none

/-- Leftmost match of the claimed regex `HH[:.]?MM`. -/
def specHHMMFind : Str → Option (Str × Str)
  | [] => none
  | c :: rest =>
    match specHHMMHere (c :: rest) with
    | some r => some r
    | none => specHHMMFind rest

/-- The infraction-time rule exactly as the claim states it: a time
matching `HH[:.]?MM` (with mandatory minutes) is stored zero-padded,
"ahora"/"recién" texts store the wall-clock time, and any other text is
stored raw.  Stated from the claim's words, to be compared with the
code's `interpretInfractionTime`. -/
def specInfractionTimeC9 (text : Str) (nowH nowM : Nat) : Str :=
  match specHHMMFind text with
  | some hm => padTwo hm.1 ++ ':' :: hm.2
  | none =>
    if containsSub (strToLower text) (ofString "ahora") ||
        containsSub (strToLower text) (ofString "recién") then fmtClock nowH nowM
    else text

/-! ## Report-type classification -/

/-- The valid report types accepted from the classifier model
(`validTypes` in `extractReportType`). -/
def validReportTypes : List Str :=
  [ofString "recoleccion", ofString "barrido", ofString "obstruccion",
   ofString "ocupacion_comercial", ofString "ocupacion_gastronomica",
   ofString "manteros", ofString "puesto_diarios", ofString "puesto_flores",
   ofString "vehiculo_mal_estacionado"]

/-- Model of `extractReportType` (whatsapp-bot.js) against the classifier oracle:
a thrown call and any answer outside the valid set both default to
`recoleccion`; a valid answer (trimmed, lower-cased) is returned as is. -/
def extractReportType (outcome : Except Unit Str) : Str :=
  match outcome with
  | .error _ => strRecoleccion
  | .ok text =>
    let result := strToLower (strTrim text)
    if validReportTypes.contains result then result else strRecoleccion

/-! ## Fixtures and derived definitions used by the claim theorems -/

def mentionA : Str := ofString "@5491111111111"

def reqA : Request :=
  { senderId := ofString "5491111111111@c.us", address := ofString "Pasteur 415" }

def reqB : Request :=
  { senderId := ofString "5492222222222@c.us", address := ofString "Callao 500" }

def jobA : Request :=
  { senderId := ofString "111@c.us", address := ofString "Corrientes 1200" }

def msgPhoto : MsgObj := { photo := some (ofString "photos/p1.jpg") }

def msgNoDigit : MsgObj := { text := some (ofString "en la esquina") }

def vehicleRetryReq : Request :=
  { senderId := ofString "111@c.us"
    address := ofString "Anchorena 1500"
    reportType := some vehicleType
    patente := some (ofString "AB123CD")
    infractionTime := some (ofString "14:30")
    photos := some [ofString "photos/v1.jpg", ofString "photos/v2.jpg"]
    retryCount := some 3 }

def plainReq : Request :=
  { senderId := ofString "111@c.us"
    address := ofString "Pasteur 415"
    photo := some (ofString "photos/p1.jpg") }

def peruReq : Request :=
  { senderId := ofString "111@c.us", address := ofString "Perú 450" }

/-- The dedup map right after the job for "Perú 450" was queued at time
1000000: keyed by the *normalized* address. -/
def dedupAfterQueue : DedupMap :=
  dedupSet [] (queueDedupKey (ofString "Perú 450") none none) 1000000

def vehAddr : Str := ofString "Anchorena 1500"

def vehReqOnePhoto : ExtractedRequest :=
  { address := some vehAddr, reportType := some vehicleType
    patente := some (ofString "AB123CD"), infractionTime := some (ofString "14:30") }

def vehReqNoPat : ExtractedRequest :=
  { address := some vehAddr, reportType := some vehicleType
    infractionTime := some (ofString "14:30") }

def vehReqNoTime : ExtractedRequest :=
  { address := some vehAddr, reportType := some vehicleType
    patente := some (ofString "AB123CD") }

def vehReqStartup : ExtractedRequest :=
  { address := some (ofString "Pasteur 415"), reportType := some vehicleType
    msgIndex := some 1 }

def vehMsg1 : MsgObj :=
  { text := some (ofString "Auto mal estacionado en Pasteur 415")
    photo := some (ofString "photos/v1.jpg") }

def vehMsg2 : MsgObj := { photo := some (ofString "photos/v2.jpg") }

def vehJob1Photo : Request :=
  { senderId := ofString "111@c.us", address := vehAddr
    reportType := some vehicleType, patente := some (ofString "AB123CD")
    infractionTime := some (ofString "14:30")
    photos := some [ofString "photos/v1.jpg"] }

def csvRec1 : CsvRecord :=
  { solicitudNumber := ofString "0100200"
    address := ofString "Pasteur 415"
    rawType := ofString "recoleccion"
    rawPatente := none
    timestamp := 1000 }

def csvRec2 : CsvRecord :=
  { solicitudNumber := ofString "0100300"
    address := ofString "pasteur 415"
    rawType := ofString "recoleccion"
    rawPatente := none
    timestamp := 2000 }

def pasteurCandidate : ExtractedRequest :=
  { address := some (ofString "Pasteur 415") }

def procMapW : ProcessedMap :=
  [(entryKey (normalizeAddressForComparison (ofString "Pasteur 415")) strRecoleccion none,
    ⟨2000, ofString "0100300"⟩)]

/-- Soundness and completeness of the loaded index relative to the records
folded in so far: every entry stems from a record with that key, and
every record's key is present with a timestamp at least its own. -/
def loadSound (processed : List CsvRecord) (m : ProcessedMap) : Prop :=
  (∀ k e, mapGet m k = some e →
    ∃ r ∈ processed, recordKey r = k ∧ e = ⟨r.timestamp, r.solicitudNumber⟩) ∧
  (∀ r ∈ processed, ∃ e, mapGet m (recordKey r) = some e ∧ r.timestamp ≤ e.timestamp)

/-- The patente-compatibility part of the scan condition: a stored vehicle
entry is skipped only when both the candidate and the stored entry carry
a patente and they differ after upper-casing. -/
def patSkipCheck (patente keyPat : Option Str) : Bool :=
  match patente, keyPat with
  | some pl, some sp => !pl.isEmpty && strToUpper pl != strToUpper sp
  | _, _ => false

/-! ## General lemmas about the string embedding -/

lemma headMatches_iff (s p : Str) : headMatches s p = true ↔ ∃ t, s = p ++ t := by
  induction p generalizing s with
  | nil =>
    simp [headMatches]
  | cons c p1 ih =>
    cases s with
    | nil =>
      simp only [headMatches, List.cons_append]
      constructor
      · intro h; cases h
      · rintro ⟨t, ht⟩; cases ht
    | cons d s1 =>
      simp only [headMatches, Bool.and_eq_true, beq_iff_eq, ih, List.cons_append,
        List.cons.injEq]
      constructor
      · rintro ⟨rfl, t, rfl⟩; exact ⟨t, rfl, rfl⟩
      · rintro ⟨t, rfl, rfl⟩; exact ⟨rfl, t, rfl⟩

lemma containsSub_iff_split (s p : Str) : containsSub s p = true ↔ ∃ a t, s = a ++ p ++ t := by
  induction s with
  | nil =>
    simp only [containsSub, headMatches_iff]
    constructor
    · rintro ⟨t, ht⟩
      exact ⟨[], t, by simpa using ht⟩
    · rintro ⟨a, t, ht⟩
      rcases List.append_eq_nil.mp (ht.symm) with ⟨h1, h2⟩
      rcases List.append_eq_nil.mp h1 with ⟨_, h3⟩
      exact ⟨t, by simp [h3, h2]⟩
  | cons c s1 ih =>
    simp only [containsSub, Bool.or_eq_true, headMatches_iff, ih]
    constructor
    · rintro (⟨t, ht⟩ | ⟨a, t, ht⟩)
      · exact ⟨[], t, by simpa using ht⟩
      · exact ⟨c :: a, t, by simp [ht]⟩
    · rintro ⟨a, t, ht⟩
      cases a with
      | nil => exact Or.inl ⟨t, by simpa using ht⟩
      | cons d a1 =>
        rcases List.cons.injEq .. ▸ ht with ⟨_, h2⟩
        exact Or.inr ⟨a1, t, h2⟩

lemma containsSub_of_parts (a p t : Str) : containsSub (a ++ p ++ t) p = true :=
  (containsSub_iff_split (a ++ p ++ t) p).mpr ⟨a, t, rfl⟩

lemma dropWhile_keep_pattern (a p t : Str) (c : Char) (p1 : Str) (hp : p = c :: p1)
    (hc : isWs c = false) : ∃ a1, (a ++ p ++ t).dropWhile isWs = a1 ++ p ++ t := by
  induction a with
  | nil =>
    refine ⟨[], ?_⟩
    simp [hp, List.dropWhile_cons, hc]
  | cons d a1 ih =>
    by_cases hd : isWs d
    · rcases ih with ⟨a2, ha2⟩
      exact ⟨a2, by simpa [List.dropWhile_cons, hd] using ha2⟩
    · exact ⟨d :: a1, by simp [List.dropWhile_cons, hd]⟩

/-- A substring whose first and last characters are not whitespace survives
trimming. -/
lemma containsSub_strTrim (s p : Str) (c1 : Char) (p1 : Str) (hp1 : p = c1 :: p1)
    (hc1 : isWs c1 = false) (c2 : Char) (p2 : Str) (hp2 : p.reverse = c2 :: p2)
    (hc2 : isWs c2 = false) (h : containsSub s p = true) :
    containsSub (strTrim s) p = true := by
  rcases (containsSub_iff_split s p).mp h with ⟨a, t, rfl⟩
  rcases dropWhile_keep_pattern a p t c1 p1 hp1 hc1 with ⟨a1, ha1⟩
  have hrev : ((a1 ++ p ++ t).reverse) = t.reverse ++ p.reverse ++ a1.reverse := by
    simp [List.reverse_append, List.append_assoc]
  rcases dropWhile_keep_pattern t.reverse p.reverse a1.reverse c2 p2 hp2 hc2 with ⟨a2, ha2⟩
  have : strTrim (a ++ p ++ t) = a1 ++ p ++ a2.reverse := by
    unfold strTrim
    rw [ha1, hrev, ha2]
    simp [List.reverse_append, List.append_assoc]
  rw [this]
  exact containsSub_of_parts a1 p a2.reverse

lemma splitOnBar_no_bar (t : Str) (h : '|' ∉ t) : splitOnBar t = [t] := by
  induction t with
  | nil => rfl
  | cons c rest ih =>
    have hc : (c == '|') = false := by
      rw [beq_eq_false_iff_ne]
      rintro rfl
      exact h (List.mem_cons_self _ _)
    have hrest : splitOnBar rest = [rest] := ih (fun hm => h (List.mem_cons_of_mem _ hm))
    simp [splitOnBar, hc, hrest]

lemma splitOnBar_append (a b : Str) (ha : '|' ∉ a) :
    splitOnBar (a ++ '|' :: b) = a :: splitOnBar b := by
  induction a with
  | nil => simp [splitOnBar]
  | cons c a1 ih =>
    have hc : (c == '|') = false := by
      rw [beq_eq_false_iff_ne]
      rintro rfl
      exact ha (List.mem_cons_self _ _)
    have htail : splitOnBar (a1 ++ '|' :: b) = a1 :: splitOnBar b :=
      ih (fun hm => ha (List.mem_cons_of_mem _ hm))
    simp [splitOnBar, hc, htail]

lemma splitOnBar_entryKey (a t : Str) (pat : Option Str) (ha : '|' ∉ a) (ht : '|' ∉ t)
    (hp : ∀ p, pat = some p → '|' ∉ p) :
    splitOnBar (entryKey a t pat) =
      a :: t :: (match pat with | some p => [p] | none => []) := by
  cases pat with
  | none =>
    have : entryKey a t none = a ++ '|' :: t := by simp [entryKey]
    rw [this, splitOnBar_append a t ha, splitOnBar_no_bar t ht]
  | some p =>
    have : entryKey a t (some p) = a ++ '|' :: (t ++ '|' :: p) := by
      simp [entryKey, List.append_assoc]
    rw [this, splitOnBar_append a _ ha, splitOnBar_append t p ht,
      splitOnBar_no_bar p (hp p rfl)]

lemma mapGet_set_self (m : ProcessedMap) (k : Str) (v : Entry) :
    mapGet (mapSet m k v) k = some v := by
  induction m with
  | nil => simp [mapSet, mapGet, List.find?]
  | cons p rest ih =>
    by_cases h : p.1 == k
    · simp [mapSet, h, mapGet, List.find?]
    · simp only [mapSet, h, Bool.false_eq_true, if_false]
      simpa [mapGet, List.find?, h] using ih

lemma mapGet_set_other (m : ProcessedMap) (k k' : Str) (v : Entry) (h : k' ≠ k) :
    mapGet (mapSet m k v) k' = mapGet m k' := by
  have hk : (k == k') = false := by
    rw [beq_eq_false_iff_ne]
    exact fun hcon => h hcon.symm
  induction m with
  | nil =>
    simp [mapSet, mapGet, List.find?, hk]
  | cons p rest ih =>
    by_cases hp : p.1 == k
    · have hp1 : (p.1 == k') = false := by
        rw [beq_eq_false_iff_ne]
        rw [beq_iff_eq] at hp
        intro hcon
        exact h (by rw [← hcon, hp])
      simp [mapSet, hp, mapGet, List.find?, hp1, hk]
    · by_cases hq : p.1 == k'
      · simp [mapSet, hp, mapGet, List.find?, hq]
      · simp only [mapSet, hp, Bool.false_eq_true, if_false]
        simpa [mapGet, List.find?, hq] using ih

/-! ## Concrete fixtures used by witnesses and counterexamples -/

/-! ## Claim C10 -/

/-- Claim C10: `extractReportType` is total over any classifier outcome:
it always returns one of the nine valid report-type strings, and whenever
the classifier answer normalizes to something outside that set, or the
call throws, the result is the default `recoleccion`. -/
theorem extractReportType_total (outcome : Except Unit Str) :
    extractReportType outcome ∈ validReportTypes ∧
    (∀ text, outcome = .ok text → strToLower (strTrim text) ∉ validReportTypes →
      extractReportType outcome = strRecoleccion) ∧
    (∀ e, outcome = .error e → extractReportType outcome = strRecoleccion) := by
  have hrec : strRecoleccion ∈ validReportTypes := by decide
  refine ⟨?_, ?_, ?_⟩
  · cases outcome with
    | error e => simpa [extractReportType] using hrec
    | ok text =>
      simp only [extractReportType]
      by_cases h : validReportTypes.contains (strToLower (strTrim text))
      · simp only [h, if_true]
        exact List.elem_iff.mp h
      · simp only [h, Bool.false_eq_true, if_false]
        exact hrec
  · rintro text rfl hout
    have h : validReportTypes.contains (strToLower (strTrim text)) = false := by
      by_contra hcon
      exact hout (List.elem_iff.mp (by simpa using hcon))
    simp only [extractReportType, h, Bool.false_eq_true, if_false]
  · rintro e rfl
    rfl

/-- Witness for C10 at a concrete classifier answer outside the valid set. -/
theorem extractReportType_total_witness :
    extractReportType (.ok (ofString " Algo Raro ")) = strRecoleccion :=
  (extractReportType_total (.ok (ofString " Algo Raro "))).2.1 (ofString " Algo Raro ")
    rfl (by decide)

/-! ## Claim C9 -/

/-- Claim C9 counterexample: on the text "a las 5" the code's regex
`(\d{1,2})[:\.]?(\d{2})?` matches the bare "5" and stores "05:00",
whereas the claimed rule (regex `HH[:.]?MM`, else "ahora"/"recién", else
raw text) stores the raw text "a las 5". -/
theorem infractionTime_counterexample :
    interpretInfractionTime (ofString "a las 5") 10 30 = ofString "05:00" ∧
    specInfractionTimeC9 (ofString "a las 5") 10 30 = ofString "a las 5" ∧
    interpretInfractionTime (ofString "a las 5") 10 30 ≠
      specInfractionTimeC9 (ofString "a las 5") 10 30 := by
  refine ⟨by decide, by decide, by decide⟩

/-- Claim C9 (amended): when awaiting `infractionTime`, a text containing a
digit is read through the code's regex — the first run of one or two
digits is the zero-padded hour and the two digits after an optional ':'
or '.' are the minutes, defaulting to "00"; a digit-free text saying
"ahora" or "recién" stores the current wall-clock time; any other text is
stored raw. -/
theorem infractionTime_cases (text : Str) (nowH nowM : Nat) :
    ((timeMatch text).isSome ↔ hasDigit text = true) ∧
    (∀ hs ms?, timeMatch text = some (hs, ms?) →
      interpretInfractionTime text nowH nowM = padTwo hs ++ ':' :: ms?.getD (ofString "00")) ∧
    (timeMatch text = none →
      (containsSub (strToLower text) (ofString "ahora") ||
        containsSub (strToLower text) (ofString "recién")) = true →
      interpretInfractionTime text nowH nowM = fmtClock nowH nowM) ∧
    (timeMatch text = none →
      (containsSub (strToLower text) (ofString "ahora") ||
        containsSub (strToLower text) (ofString "recién")) = false →
      interpretInfractionTime text nowH nowM = text) := by
  refine ⟨?_, ?_, ?_, ?_⟩
  · induction text with
    | nil => simp [timeMatch, hasDigit]
    | cons c rest ih =>
      by_cases hc : isAsciiDigit c
      · simp [timeMatch, hasDigit, hc]
      · simpa [timeMatch, hasDigit, hc] using ih
  · intro hs ms? h
    simp [interpretInfractionTime, h]
  · intro h hc
    simp [interpretInfractionTime, h, hc]
  · intro h hc
    simp [interpretInfractionTime, h, hc]

/-- Witness for C9 at concrete texts of each kind. -/
theorem infractionTime_cases_witness :
    timeMatch (ofString "a eso de las 14.30") = some (ofString "14", some (ofString "30")) ∧
    interpretInfractionTime (ofString "a eso de las 14.30") 9 5 =
      padTwo (ofString "14") ++ ':' :: (some (ofString "30")).getD (ofString "00") ∧
    interpretInfractionTime (ofString "ahora") 9 5 = fmtClock 9 5 :=
  ⟨by decide,
   (infractionTime_cases (ofString "a eso de las 14.30") 9 5).2.1 _ _ (by decide),
   (infractionTime_cases (ofString "ahora") 9 5).2.2.1 (by decide) (by decide)⟩

/-! ## Claim C2 -/

lemma drainQueue_eq_intersperse (q : List Request) :
    drainQueue q = List.intersperse (QEvent.delay 2000) (q.map QEvent.submit) := by
  induction q with
  | nil => rfl
  | cons r rest ih =>
    cases rest with
    | nil => rfl
    | cons r2 rest2 =>
      simp only [drainQueue, List.isEmpty_cons, Bool.false_eq_true, if_false] at ih ⊢
      rw [ih]
      simp [List.intersperse]

lemma qInvariant_preserved (s s2 : QState) (l : QLabel) (hs : qInvariant s)
    (h : QStep s l s2) : qInvariant s2 := by
  rcases hs with ⟨hlen, hiff⟩
  cases h with
  | callNoop hg => exact ⟨hlen, hiff⟩
  | callStart hp hq =>
    have h0 : s.workers.length = 0 := by
      by_contra hne
      have h1 : s.workers.length = 1 := by omega
      have := hiff.mpr h1
      rw [hp] at this
      exact Bool.false_ne_true this
    have hw : s.workers = [] := List.length_eq_zero.mp h0
    constructor
    · simp [hw]
    · simp [hw]
  | beginSubmit r rest w1 w2 hw hq =>
    rw [hw] at hlen hiff
    constructor
    · simpa using hlen
    · simpa using hiff
  | endSubmitDelay r w1 w2 hw hq =>
    rw [hw] at hlen hiff
    constructor
    · simpa using hlen
    · simpa using hiff
  | endSubmitNoDelay r w1 w2 hw hq =>
    rw [hw] at hlen hiff
    constructor
    · simpa using hlen
    · simpa using hiff
  | wake w1 w2 hw =>
    rw [hw] at hlen hiff
    constructor
    · simpa using hlen
    · simpa using hiff
  | exitLoop w1 w2 hw hq =>
    rw [hw] at hlen
    simp only [List.length_append, List.length_cons] at hlen
    have hw1 : w1 = [] := List.length_eq_zero.mp (by omega)
    have hw2 : w2 = [] := List.length_eq_zero.mp (by omega)
    subst hw1
    subst hw2
    constructor
    · simp
    · simp
  | push r => exact ⟨hlen, hiff⟩

lemma qreach_invariant (s : QState) (h : QReach s) : qInvariant s := by
  induction h with
  | init => exact ⟨by simp [qInit], by simp [qInit]⟩
  | step s l s2 _ hstep ih => exact qInvariant_preserved s s2 l ih hstep

lemma inFlight_le_workers (s : QState) : inFlightCount s ≤ s.workers.length :=
  List.length_filter_le _ _

/-- Claim C2: a `processQueue` call made while `isProcessingQueue` is true,
or while the queue is empty, returns without dequeuing or submitting
anything; otherwise the worker drains the FIFO in arrival order with a
fixed 2-second delay between consecutive submissions and clears the flag.
In the interleaved semantics, every reachable state has at most one
active worker loop and at most one submission in flight. -/
theorem processQueue_single_worker (b : Bool) (q : List Request) (s : QState) :
    (b = true ∨ q = [] → processQueue b q = (b, q, [])) ∧
    (b = false → q ≠ [] →
      processQueue b q =
        (false, [], List.intersperse (.delay 2000) (q.map QEvent.submit))) ∧
    (QReach s → s.workers.length ≤ 1 ∧ inFlightCount s ≤ 1 ∧
      (s.processing = true ↔ s.workers.length = 1)) := by
  refine ⟨?_, ?_, ?_⟩
  · rintro (rfl | rfl)
    · simp [processQueue]
    · simp [processQueue]
  · rintro rfl hq
    rw [processQueue]
    simp [List.isEmpty_iff, hq, drainQueue_eq_intersperse]
  · intro hr
    have hi := qreach_invariant s hr
    exact ⟨hi.1, le_trans (inFlight_le_workers s) hi.1, hi.2⟩

/-- Witness for C2: the guard, the drain and the invariant at concrete
states. -/
theorem processQueue_single_worker_witness :
    processQueue true [reqA] = (true, [reqA], []) ∧
    processQueue false [reqA, reqB] =
      (false, [], List.intersperse (.delay 2000) ([reqA, reqB].map QEvent.submit)) ∧
    (qInit.workers.length ≤ 1 ∧ inFlightCount qInit ≤ 1 ∧
      (qInit.processing = true ↔ qInit.workers.length = 1)) :=
  ⟨(processQueue_single_worker true [reqA] qInit).1 (Or.inl rfl),
   (processQueue_single_worker false [reqA, reqB] qInit).2.1 rfl (by simp),
   (processQueue_single_worker false [] qInit).2.2 QReach.init⟩

/-! ## Claim C5 -/

lemma debounceTime_spec (msgs : List MsgObj) :
    (debounceTime msgs = DEBOUNCE_PHOTO_MS ↔
      batchHasPhotos msgs = true ∧ batchHasTextWithNumbers msgs = false) ∧
    (debounceTime msgs = DEBOUNCE_PHOTO_MS ∨ debounceTime msgs = DEBOUNCE_MS) := by
  constructor
  · unfold debounceTime
    by_cases h1 : batchHasPhotos msgs = true <;>
      by_cases h2 : batchHasTextWithNumbers msgs = true <;>
        simp [h1, h2, DEBOUNCE_PHOTO_MS, DEBOUNCE_MS]
  · unfold debounceTime
    by_cases h : (batchHasPhotos msgs && !batchHasTextWithNumbers msgs) = true <;> simp [h]

lemma runArrivals_trace (msgs : List MsgObj) (st : PendingState) (id : Nat)
    (h : msgs ≠ []) :
    (runArrivals msgs (some st) id).2 =
      st.timer.toList ++ List.range' id (msgs.length - 1) ∧
    ∃ stF, (runArrivals msgs (some st) id).1 = some stF ∧
      stF.timer = some (id + (msgs.length - 1)) ∧
      stF.messages = st.messages ++ msgs := by
  induction msgs generalizing st id with
  | nil => cases h rfl
  | cons m rest ih =>
    cases rest with
    | nil =>
      refine ⟨?_, ⟨st.messages ++ [m], some id, st.hasAskedForAddress⟩, ?_, ?_, ?_⟩
      · simp only [runArrivals, bufferMessage]
        cases htimer : st.timer <;> simp [htimer, Option.toList]
      · simp [runArrivals, bufferMessage]
      · simp
      · simp
    | cons m2 rest2 =>
      have hne : (m2 :: rest2 : List MsgObj) ≠ [] := by simp
      have hih := ih ⟨st.messages ++ [m], some id, st.hasAskedForAddress⟩ (id + 1) hne
      rcases hih with ⟨hcanc, stF, hstF, htimer, hmsgs⟩
      refine ⟨?_, stF, ?_, ?_, ?_⟩
      · show (match st.timer with | some t => [t] | none => []) ++
          (runArrivals (m2 :: rest2)
            (some ⟨st.messages ++ [m], some id, st.hasAskedForAddress⟩) (id + 1)).2 = _
        rw [hcanc]
        have : List.range' id ((m :: m2 :: rest2).length - 1) =
            id :: List.range' (id + 1) ((m2 :: rest2).length - 1) := by
          simp [List.range'_succ]
        rw [this]
        cases st.timer <;> simp [Option.toList]
      · exact hstF
      · rw [htimer]
        congr 1
        simp
        omega
      · rw [hmsgs]
        simp

/-- Claim C5: a newly arrived message cancels the previously armed debounce
timer before arming a fresh one — in a burst, every generation except the
last is cancelled exactly once — and the armed delay is 8 seconds exactly
when the updated batch contains a photo and no text with a digit, 3
seconds otherwise. -/
theorem debounce_coalescing (st? : Option PendingState) (m : MsgObj) (id : Nat)
    (msgs : List MsgObj) (hmsgs : msgs ≠ []) :
    ((bufferMessage st? m id).2.1 = (st?.getD ⟨[], none, false⟩).timer ∧
      (bufferMessage st? m id).1.timer = some id) ∧
    ((runArrivals msgs none 0).2 = List.range (msgs.length - 1) ∧
      ∃ stF, (runArrivals msgs none 0).1 = some stF ∧
        stF.timer = some (msgs.length - 1) ∧ stF.messages = msgs) ∧
    (((bufferMessage st? m id).2.2 = DEBOUNCE_PHOTO_MS ↔
        batchHasPhotos (bufferMessage st? m id).1.messages = true ∧
        batchHasTextWithNumbers (bufferMessage st? m id).1.messages = false) ∧
      ((bufferMessage st? m id).2.2 = DEBOUNCE_PHOTO_MS ∨
        (bufferMessage st? m id).2.2 = DEBOUNCE_MS)) := by
  refine ⟨?_, ?_, ?_⟩
  · cases st? <;> simp [bufferMessage]
  · cases msgs with
    | nil => cases hmsgs rfl
    | cons m1 rest =>
      cases rest with
      | nil =>
        refine ⟨by simp [runArrivals, bufferMessage, List.range_zero], ⟨[m1], some 0, false⟩, ?_, ?_, ?_⟩
        · simp [runArrivals, bufferMessage]
        · simp
        · simp
      | cons m2 rest2 =>
        have hne : (m2 :: rest2 : List MsgObj) ≠ [] := by simp
        have hih := runArrivals_trace (m2 :: rest2) ⟨[m1], some 0, false⟩ 1 hne
        rcases hih with ⟨hcanc, stF, hstF, htimer, hmsgs2⟩
        refine ⟨?_, stF, ?_, ?_, ?_⟩
        · show (match (none : Option Nat) with | some t => [t] | none => []) ++
            (runArrivals (m2 :: rest2) (some ⟨[m1], some 0, false⟩) 1).2 = _
          rw [hcanc]
          simp [Option.toList, List.range_eq_range', List.range'_succ]
        · exact hstF
        · rw [htimer]
          congr 1
          simp
          omega
        · rw [hmsgs2]
          simp
  · have hEq : (bufferMessage st? m id).2.2 =
        debounceTime ((bufferMessage st? m id).1.messages) := by
      cases st? <;> rfl
    rw [hEq]
    exact debounceTime_spec _

/-- Witness for C5 at a concrete two-message burst. -/
theorem debounce_coalescing_witness :
    (runArrivals [msgPhoto, msgNoDigit] none 0).2 =
      List.range (([msgPhoto, msgNoDigit] : List MsgObj).length - 1) ∧
    ((bufferMessage (some ⟨[msgPhoto], some 0, false⟩) msgNoDigit 1).2.2 = DEBOUNCE_PHOTO_MS ↔
      batchHasPhotos (bufferMessage (some ⟨[msgPhoto], some 0, false⟩) msgNoDigit 1).1.messages = true ∧
      batchHasTextWithNumbers (bufferMessage (some ⟨[msgPhoto], some 0, false⟩) msgNoDigit 1).1.messages = false) :=
  ⟨(debounce_coalescing none msgPhoto 0 [msgPhoto, msgNoDigit] (by simp)).2.1.1,
   (debounce_coalescing (some ⟨[msgPhoto], some 0, false⟩) msgNoDigit 1
      [msgPhoto] (by simp)).2.2.1⟩

/-! ## Claim C6 -/

/-- Claim C6 counterexample: with the worker busy on another sender's job,
a job of the correcting sender that is still queued (not dequeued) is
*not* mutated in place — a second corrected copy is enqueued instead, and
the queued original keeps its old address. -/
theorem correction_counterexample :
    (applyCorrection [jobA] true (ofString "111@c.us") (ofString "Callao 500")).1 =
      [jobA, { jobA with address := ofString "Callao 500" }] ∧
    (applyCorrection [jobA] true (ofString "111@c.us") (ofString "Callao 500")).2 =
      .queuedSecond { jobA with address := ofString "Callao 500" } ∧
    jobA.address = ofString "Corrientes 1200" := by
  refine ⟨by decide, by decide, by decide⟩

/-- Claim C6 (amended): the branch is keyed on `isProcessingQueue`, not on
whether the sender's own job is in flight: a queued job of the sender is
mutated in place only while the worker is idle; when the worker is
running, a corrected copy of the still-queued job is appended (the
original keeps its address); when no job of the sender is queued —
including when it is already in flight — nothing is mutated or
enqueued. -/
theorem correction_behaviour (queue : List Request) (b : Bool) (senderId addr : Str) :
    (∀ idx r0, queue.findIdx? (fun r => r.senderId == senderId) = some idx →
      queue[idx]? = some r0 →
      (b = false →
        applyCorrection queue b senderId addr =
          (queue.set idx { r0 with address := addr }, .mutatedInPlace r0.address) ∧
        (queue.set idx { r0 with address := addr }).length = queue.length) ∧
      (b = true →
        applyCorrection queue b senderId addr =
          (queue ++ [{ r0 with address := addr }],
            .queuedSecond { r0 with address := addr }))) ∧
    (queue.findIdx? (fun r => r.senderId == senderId) = none →
      applyCorrection queue b senderId addr = (queue, .noPending)) ∧
    (queue.findIdx? (fun r => r.senderId == senderId) = none ↔
      ∀ r ∈ queue, r.senderId ≠ senderId) := by
  refine ⟨?_, ?_, ?_⟩
  · intro idx r0 hidx hget
    constructor
    · rintro rfl
      exact ⟨by simp [applyCorrection, hidx, hget], by simp⟩
    · rintro rfl
      simp [applyCorrection, hidx, hget]
  · intro h
    simp [applyCorrection, h]
  · rw [List.findIdx?_eq_none_iff]
    constructor
    · intro h r hr
      simpa [beq_eq_false_iff_ne] using h r hr
    · intro h r hr
      simpa [beq_eq_false_iff_ne] using h r hr

/-- Witness for C6: in-place mutation at a concrete idle-worker state. -/
theorem correction_behaviour_witness :
    applyCorrection [jobA] false (ofString "111@c.us") (ofString "Callao 500") =
      ([jobA].set 0 { jobA with address := ofString "Callao 500" },
        .mutatedInPlace jobA.address) ∧
    ([jobA].set 0 { jobA with address := ofString "Callao 500" }).length =
      ([jobA] : List Request).length :=
  ((correction_behaviour [jobA] false (ofString "111@c.us") (ofString "Callao 500")).1
    0 jobA (by decide) (by decide)).1 rfl

/-! ## Claim C3 -/

/-- Claim C3 counterexample: a vehicle job that has exhausted its retries
retains two photos in its `photos` array, yet `notifyFinalFailure`
deletes only the (absent) single `photo` field — nothing is deleted, so
"any retained photo of the job is deleted" fails. -/
theorem retry_final_photo_counterexample :
    scheduleRetry mentionA vehicleRetryReq =
      .finalFailure (finalFailureNotice mentionA vehicleRetryReq) [] ∧
    vehicleRetryReq.photos = some [ofString "photos/v1.jpg", ofString "photos/v2.jpg"] ∧
    ((ofString "photos/v1.jpg") ∈ ([] : List Str) → False) := by
  refine ⟨by decide, by decide, by simp⟩

/-- Claim C3 (amended): for retryCount 0, 1, 2 `scheduleRetry` schedules
exactly one re-submission with retryCount+1 after 5, 50 and 500 minutes
respectively; at 3 no retry is scheduled and the final-failure notice
carrying the manual-fallback URL is sent, deleting the single `photo`
field (a vehicle job's `photos` array is not deleted).  On the
access-error and thrown-exception paths below three retries the user is
told the coming attempt number and the wait in minutes. -/
theorem retry_backoff (mention : Str) (r : Request) :
    (r.retryCount.getD 0 = 0 →
      scheduleRetry mention r =
        .scheduled (5 * 60 * 1000) { r with retryCount := some 1 } true) ∧
    (r.retryCount.getD 0 = 1 →
      scheduleRetry mention r =
        .scheduled (50 * 60 * 1000) { r with retryCount := some 2 } true) ∧
    (r.retryCount.getD 0 = 2 →
      scheduleRetry mention r =
        .scheduled (500 * 60 * 1000) { r with retryCount := some 3 } true) ∧
    (3 ≤ r.retryCount.getD 0 →
      scheduleRetry mention r =
        .finalFailure (finalFailureNotice mention r)
          (match r.photo with | some p => [p] | none => []) ∧
      containsSub (finalFailureNotice mention r) manualFallbackUrl = true) ∧
    (∀ dedup, r.retryCount.getD 0 < 3 →
      (handleSubmitThrown mention dedup r).2 =
        .accessRetry (scheduleRetry mention r)
          (some (accessRetryNotice mention r.address
            (retryDelays.getD (r.retryCount.getD 0) 0) (r.retryCount.getD 0))) ∧
      containsSub
        (accessRetryNotice mention r.address (retryDelays.getD (r.retryCount.getD 0) 0)
          (r.retryCount.getD 0))
        (ofString "intento " ++ natDigits (r.retryCount.getD 0 + 1)) = true ∧
      containsSub
        (accessRetryNotice mention r.address (retryDelays.getD (r.retryCount.getD 0) 0)
          (r.retryCount.getD 0))
        (ofString " en " ++ natDigits (retryDelays.getD (r.retryCount.getD 0) 0) ++
          ofString " minutos") = true) := by
  refine ⟨?_, ?_, ?_, ?_, ?_⟩
  · intro h
    simp [scheduleRetry, h, retryDelays]
  · intro h
    simp [scheduleRetry, h, retryDelays]
  · intro h
    simp [scheduleRetry, h, retryDelays]
  · intro h
    constructor
    · simp only [scheduleRetry, notifyFinalFailure]
      rw [if_pos h]
    · have hsplit : finalFailureNotice mention r =
          (mention ++ ofString " No pude mandar la solicitud para " ++ r.address ++
            ofString " después de 3 intentos. Por favor, intentá de nuevo más tarde o hacelo manualmente en ") ++
          manualFallbackUrl ++ ([] : Str) := by
        simp [finalFailureNotice]
      rw [hsplit]
      exact containsSub_of_parts _ _ _
  · intro dedup h
    refine ⟨?_, ?_, ?_⟩
    · simp only [handleSubmitThrown]
      rw [if_pos h]
    · have hlit : ofString " minutos (intento " =
          ofString " minutos (" ++ ofString "intento " := by decide
      have hsplit : accessRetryNotice mention r.address
            (retryDelays.getD (r.retryCount.getD 0) 0) (r.retryCount.getD 0) =
          (mention ++ ofString " Hay problemas para acceder a Gestión Colaborativa. Voy a reintentar " ++
            r.address ++ ofString " en " ++
            natDigits (retryDelays.getD (r.retryCount.getD 0) 0) ++ ofString " minutos (") ++
          (ofString "intento " ++ natDigits (r.retryCount.getD 0 + 1)) ++ ofString "/3)." := by
        simp [accessRetryNotice, hlit, List.append_assoc]
      rw [hsplit]
      exact containsSub_of_parts _ _ _
    · have hlit : ofString " minutos (intento " =
          ofString " minutos" ++ ofString " (intento " := by decide
      have hsplit : accessRetryNotice mention r.address
            (retryDelays.getD (r.retryCount.getD 0) 0) (r.retryCount.getD 0) =
          (mention ++ ofString " Hay problemas para acceder a Gestión Colaborativa. Voy a reintentar " ++
            r.address) ++
          (ofString " en " ++ natDigits (retryDelays.getD (r.retryCount.getD 0) 0) ++
            ofString " minutos") ++
          (ofString " (intento " ++ natDigits (r.retryCount.getD 0 + 1) ++ ofString "/3).") := by
        simp [accessRetryNotice, hlit, List.append_assoc]
      rw [hsplit]
      exact containsSub_of_parts _ _ _

/-- Witness for C3 at a fresh job (no prior retries). -/
theorem retry_backoff_witness :
    scheduleRetry mentionA plainReq =
      .scheduled (5 * 60 * 1000) { plainReq with retryCount := some 1 } true ∧
    (handleSubmitThrown mentionA [] plainReq).2 =
      .accessRetry (scheduleRetry mentionA plainReq)
        (some (accessRetryNotice mentionA plainReq.address
          (retryDelays.getD (plainReq.retryCount.getD 0) 0) (plainReq.retryCount.getD 0))) :=
  ⟨(retry_backoff mentionA plainReq).1 (by decide),
   ((retry_backoff mentionA plainReq).2.2.2.2 [] (by decide)).1⟩

/-! ## Claim C7 -/

/-- Claim C7: the access-error and thrown-exception paths do call
`clearFromDedup` and schedule a retry — but `clearFromDedup` removes the
*lower-cased* address while the entry was stored under the *normalized*
key, so for an accented address the entry survives and a manual resend
within the 5-minute window is still blocked, contradicting the claimed
(and commented) behaviour. -/
theorem dedup_clear_key_mismatch :
    queueDedupKey (ofString "Perú 450") none none = ofString "peru 450" ∧
    isAccessError (some (ofString "Navigation timeout exceeded")) = true ∧
    (handleSubmitFailure mentionA dedupAfterQueue peruReq
        (some (ofString "Navigation timeout exceeded"))).2 =
      .accessRetry (scheduleRetry mentionA peruReq)
        (some (accessRetryNotice mentionA (ofString "Perú 450") 5 0)) ∧
    (handleSubmitFailure mentionA dedupAfterQueue peruReq
        (some (ofString "Navigation timeout exceeded"))).1 = dedupAfterQueue ∧
    (handleSubmitThrown mentionA dedupAfterQueue peruReq).1 = dedupAfterQueue ∧
    strToLower (ofString "Perú 450") ≠ ofString "peru 450" ∧
    recentlyQueuedSkip dedupAfterQueue (queueDedupKey (ofString "Perú 450") none none)
      1060000 = true := by
  refine ⟨by decide, by decide, by decide, by decide, by decide, by decide, by decide⟩

/-! ## Claim C4 -/

/-- Claim C4: in the live path a vehicle candidate is never handed to the
queue — it is parked with the missing element chosen in the fixed order
photos, patente, infractionTime, patente confirmation — and
`submitRequest` refuses a vehicle job with fewer than two photos; but the
startup-recovery path pushes a vehicle candidate *without a patente*
straight onto the global `requestQueue` with no patente, no infraction
time and no confirmation, against the claimed invariant (and against the
comment that only non-vehicle reports go directly to the queue). -/
theorem vehicle_gating_evaluation :
    classifyRequest 0 [] 1 vehReqOnePhoto = .needsVehicleInfo (ofString "photos") ∧
    classifyRequest 0 [] 2 vehReqNoPat = .needsVehicleInfo (ofString "patente") ∧
    classifyRequest 0 [] 2 vehReqNoTime = .needsVehicleInfo (ofString "infractionTime") ∧
    classifyRequest 0 [] 2 vehReqOnePhoto = .needsVehicleInfo (ofString "patenteConfirmation") ∧
    submitVehicleGate vehJob1Photo =
      .askSecondPhoto vehicleGateQuestion [ofString "photos/v1.jpg"] (ofString "photo") ∧
    (startupRouteRequest 0 [] [] [vehMsg1, vehMsg2] [1]
        (ofString "111@c.us") (ofString "Vecino") vehReqStartup).2 =
      .toRequestQueue
        { senderId := ofString "111@c.us", senderName := ofString "Vecino"
          address := ofString "Pasteur 415", reportType := some vehicleType
          containerType := some (ofString "negro")
          photo := some (ofString "photos/v1.jpg")
          photos := some [ofString "photos/v1.jpg", ofString "photos/v2.jpg"] } := by
  refine ⟨by decide, by decide, by decide, by decide, by decide, by decide⟩

/-! ## Claim C8 -/

lemma extractAttempts_delays (parse : Str → Option ExtractResult)
    (texts : List (Option Str)) (attempts : List AttemptOutcome) (attempt : Nat)
    (h : attempt ≤ 3) :
    ∃ k, (extractAttemptsGo parse texts attempt attempts).1 =
      (List.range' attempt k).map (fun i => i * 5000) ∧ attempt + k ≤ 3 := by
  induction attempts generalizing attempt with
  | nil => exact ⟨0, by simp [extractAttemptsGo], by omega⟩
  | cons o rest ih =>
    cases o with
    | ok text => exact ⟨0, by simp [extractAttemptsGo], by omega⟩
    | err status msg =>
      by_cases hc : (isRetryableErr status msg && decide (attempt < 3)) = true
      · have hlt : attempt < 3 := by
          rcases Bool.and_eq_true .. |>.mp hc with ⟨_, h2⟩
          exact of_decide_eq_true h2
        rcases ih (attempt + 1) (by omega) with ⟨k, hk, hb⟩
        refine ⟨k + 1, ?_, by omega⟩
        simp only [extractAttemptsGo, hc, if_true]
        rw [hk, List.range'_succ]
        simp
      · refine ⟨0, ?_, by omega⟩
        simp [extractAttemptsGo, hc]

/-- Claim C8: `extractRequests` never lets a provider error or malformed
LLM output escape: a non-retryable error gives the saturated fallback at
once; three retryable errors wait 5 s then 10 s and then give the
saturated fallback; a response whose JSON cannot be recovered by brace
matching (or fails to parse) gives the clarify fallback; both fallbacks
carry empty requests and a user-facing response; and in every run at most
three attempts happen, with the waits an initial segment of the
5 s / 10 s / 15 s schedule. -/
theorem extract_error_tolerance (parse : Str → Option ExtractResult)
    (texts : List (Option Str)) :
    (∀ status msg rest, isRetryableErr status msg = false →
      extractRequestsRun parse texts (.err status msg :: rest) = ([], saturatedResult)) ∧
    (∀ s1 m1 s2 m2 s3 m3 rest, isRetryableErr s1 m1 = true → isRetryableErr s2 m2 = true →
      extractRequestsRun parse texts
        (.err s1 m1 :: .err s2 m2 :: .err s3 m3 :: rest) = ([5000, 10000], saturatedResult)) ∧
    (∀ text rest, braceExtract text = none →
      extractRequestsRun parse texts (.ok text :: rest) = ([], clarifyResult)) ∧
    (∀ text json rest, braceExtract text = some json → parse json = none →
      extractRequestsRun parse texts (.ok text :: rest) = ([], clarifyResult)) ∧
    (clarifyResult.requests = some [] ∧ clarifyResult.shouldRespond = true ∧
      saturatedResult.requests = some [] ∧ saturatedResult.shouldRespond = true) ∧
    (∀ attempts, ∃ k, k ≤ 2 ∧
      (extractRequestsRun parse texts attempts).1 = List.take k [5000, 10000, 15000]) := by
  refine ⟨?_, ?_, ?_, ?_, ⟨rfl, rfl, rfl, rfl⟩, ?_⟩
  · intro status msg rest h
    simp [extractRequestsRun, extractAttemptsGo, h]
  · intro s1 m1 s2 m2 s3 m3 rest h1 h2
    simp [extractRequestsRun, extractAttemptsGo, h1, h2]
  · intro text rest h
    simp [extractRequestsRun, extractAttemptsGo, parseStage, h]
  · intro text json rest h hp
    simp [extractRequestsRun, extractAttemptsGo, parseStage, h, hp]
  · intro attempts
    rcases extractAttempts_delays parse texts attempts 1 (by omega) with ⟨k, hk, hb⟩
    have hk2 : k ≤ 2 := by omega
    refine ⟨k, hk2, ?_⟩
    simp only [extractRequestsRun]
    rw [hk]
    interval_cases k <;> decide

/-- Witness for C8 at concrete oracle outcomes of each kind. -/
theorem extract_error_tolerance_witness :
    extractRequestsRun (fun _ => none) [] [.err (some 404) (ofString "Not Found")] =
      ([], saturatedResult) ∧
    extractRequestsRun (fun _ => none) []
      [.err (some 529) [], .err (some 500) [], .err (some 503) []] =
      ([5000, 10000], saturatedResult) ∧
    extractRequestsRun (fun _ => none) [] [.ok (ofString "sin json")] = ([], clarifyResult) ∧
    extractRequestsRun (fun _ => none) [] [.ok (['x', '{', '}', 'y'] : Str)] = ([], clarifyResult) :=
  ⟨(extract_error_tolerance (fun _ => none) []).1 (some 404) (ofString "Not Found") []
      (by decide),
   (extract_error_tolerance (fun _ => none) []).2.1 (some 529) [] (some 500) [] (some 503) []
      [] (by decide) (by decide),
   (extract_error_tolerance (fun _ => none) []).2.2.1 (ofString "sin json") [] (by decide),
   (extract_error_tolerance (fun _ => none) []).2.2.2.1 (['x', '{', '}', 'y'] : Str) (['{', '}'] : Str) []
      (by decide) rfl⟩

/-! ## Claim C1 -/

lemma loadRecord_invariant (processed : List CsvRecord) (m : ProcessedMap) (r : CsvRecord)
    (h : loadSound processed m) : loadSound (processed ++ [r]) (loadRecord m r) := by
  rcases h with ⟨hsound, hcomp⟩
  cases hm : mapGet m (recordKey r) with
  | none =>
    have hload : loadRecord m r =
        mapSet m (recordKey r) ⟨r.timestamp, r.solicitudNumber⟩ := by
      simp [loadRecord, hm]
    rw [hload]
    constructor
    · intro k e hk
      by_cases hkey : k = recordKey r
      · subst hkey
        rw [mapGet_set_self] at hk
        exact ⟨r, by simp, rfl, by injection hk with h1; exact h1.symm⟩
      · rw [mapGet_set_other m (recordKey r) k _ hkey] at hk
        rcases hsound k e hk with ⟨r2, hr2, hk2, he2⟩
        exact ⟨r2, by simp [hr2], hk2, he2⟩
    · intro r2 hr2
      rcases List.mem_append.mp hr2 with h2 | h2
      · rcases hcomp r2 h2 with ⟨e2, he2, hle⟩
        by_cases hkey : recordKey r2 = recordKey r
        · rw [hkey, hm] at he2
          cases he2
        · exact ⟨e2, by rw [mapGet_set_other m (recordKey r) _ _ hkey]; exact he2, hle⟩
      · have hr2r : r2 = r := by simpa using h2
        subst hr2r
        exact ⟨⟨r2.timestamp, r2.solicitudNumber⟩, mapGet_set_self m _ _, le_refl _⟩
  | some e0 =>
    by_cases hlt : e0.timestamp < r.timestamp
    · have hload : loadRecord m r =
          mapSet m (recordKey r) ⟨r.timestamp, r.solicitudNumber⟩ := by
        simp [loadRecord, hm, hlt]
      rw [hload]
      constructor
      · intro k e hk
        by_cases hkey : k = recordKey r
        · subst hkey
          rw [mapGet_set_self] at hk
          exact ⟨r, by simp, rfl, by injection hk with h1; exact h1.symm⟩
        · rw [mapGet_set_other m (recordKey r) k _ hkey] at hk
          rcases hsound k e hk with ⟨r2, hr2, hk2, he2⟩
          exact ⟨r2, by simp [hr2], hk2, he2⟩
      · intro r2 hr2
        rcases List.mem_append.mp hr2 with h2 | h2
        · rcases hcomp r2 h2 with ⟨e2, he2, hle⟩
          by_cases hkey : recordKey r2 = recordKey r
          · rw [hkey, hm] at he2
            injection he2 with hee
            refine ⟨⟨r.timestamp, r.solicitudNumber⟩, ?_, ?_⟩
            · rw [hkey]
              exact mapGet_set_self m _ _
            · rw [← hee] at hle
              show r2.timestamp ≤ r.timestamp
              omega
          · exact ⟨e2, by rw [mapGet_set_other m (recordKey r) _ _ hkey]; exact he2, hle⟩
        · have hr2r : r2 = r := by simpa using h2
          subst hr2r
          exact ⟨⟨r2.timestamp, r2.solicitudNumber⟩, mapGet_set_self m _ _, le_refl _⟩
    · have hload : loadRecord m r = m := by simp [loadRecord, hm, hlt]
      rw [hload]
      constructor
      · intro k e hk
        rcases hsound k e hk with ⟨r2, hr2, hk2, he2⟩
        exact ⟨r2, by simp [hr2], hk2, he2⟩
      · intro r2 hr2
        rcases List.mem_append.mp hr2 with h2 | h2
        · exact hcomp r2 h2
        · have hr2r : r2 = r := by simpa using h2
          subst hr2r
          exact ⟨e0, hm, by omega⟩

lemma foldl_loadSound (lines : List CsvRecord) (processed : List CsvRecord)
    (m : ProcessedMap) (h : loadSound processed m) :
    loadSound (processed ++ lines) (lines.foldl loadRecord m) := by
  induction lines generalizing processed m with
  | nil => simpa using h
  | cons r rest ih =>
    have h2 := loadRecord_invariant processed m r h
    have h3 := ih (processed ++ [r]) (loadRecord m r) h2
    simpa [List.foldl_cons, List.append_assoc] using h3

lemma getProcessed_most_recent (lines : List CsvRecord) (k : Str) (e : Entry)
    (h : mapGet (getProcessedSolicitudes lines) k = some e) :
    (∃ r ∈ lines, recordKey r = k ∧ e = ⟨r.timestamp, r.solicitudNumber⟩) ∧
    (∀ r ∈ lines, recordKey r = k → r.timestamp ≤ e.timestamp) := by
  have h0 : loadSound [] [] := by
    constructor
    · intro k2 e2 hk2
      simp [mapGet, List.find?] at hk2
    · intro r hr
      cases hr
  have hs := foldl_loadSound lines [] [] h0
  rw [List.nil_append] at hs
  rcases hs with ⟨hsound, hcomp⟩
  have h2 : mapGet (List.foldl loadRecord [] lines) k = some e := h
  refine ⟨hsound k e h2, ?_⟩
  intro r hr hk
  rcases hcomp r hr with ⟨e2, he2, hle⟩
  rw [hk, h2] at he2
  injection he2 with hee
  rw [← hee] at hle
  exact hle

lemma dup_hit_blocks (now : Int) (m : ProcessedMap) (req : ExtractedRequest)
    (photoCount : Nat) (keyPat : Option Str) (e1 : Entry) (addr : Str)
    (haddr : req.address = some addr)
    (hvalid : isValidAddress (some addr) = true)
    (hbar1 : '|' ∉ normalizeAddressForComparison addr)
    (hbar2 : '|' ∉ strOrElse req.reportType strRecoleccion)
    (hkp : ∀ p, keyPat = some p → p.isEmpty = false ∧ '|' ∉ p)
    (hskip : patSkipCheck req.patente keyPat = false)
    (hmem : (entryKey (normalizeAddressForComparison addr)
        (strOrElse req.reportType strRecoleccion) keyPat, e1) ∈ m)
    (hfresh : e1.timestamp > now - twelveHoursMs) :
    ∃ e2, isRecentDuplicate now addr req.reportType m req.patente = some e2 ∧
      e2.timestamp > now - twelveHoursMs ∧ (∃ k2, (k2, e2) ∈ m) ∧
      classifyRequest now m photoCount req = .duplicate e2.solicitudNumber ∧
      ∀ mention, containsSub
        (duplicateNotice mention addr req.reportType e2.solicitudNumber)
        (ofString "#" ++ e2.solicitudNumber ++ ofString ")") = true := by
  have hpred : dupMatches now (normalizeAddressForComparison addr)
      (strOrElse req.reportType strRecoleccion) req.patente
      (entryKey (normalizeAddressForComparison addr)
        (strOrElse req.reportType strRecoleccion) keyPat, e1) = true := by
    cases keyPat with
    | none =>
      unfold dupMatches
      rw [splitOnBar_entryKey _ _ _ hbar1 hbar2 (fun p hp => by cases hp)]
      cases hp : req.patente <;> simp [hfresh]
    | some p =>
      have hpe := (hkp p rfl).1
      unfold dupMatches
      rw [splitOnBar_entryKey _ _ _ hbar1 hbar2
        (fun q hq => by injection hq with h2; rw [← h2]; exact (hkp p rfl).2)]
      cases hpatC : req.patente with
      | none => simp [hpe, hfresh]
      | some pl =>
        have hskip2 : (!pl.isEmpty && strToUpper pl != strToUpper p) = false := by
          rw [hpatC] at hskip
          simpa [patSkipCheck] using hskip
        simp [hpe, hskip2, hfresh]
  obtain ⟨p2, hp2⟩ : ∃ p2, m.find? (dupMatches now (normalizeAddressForComparison addr)
      (strOrElse req.reportType strRecoleccion) req.patente) = some p2 := by
    have hsome := List.find?_isSome.mpr ⟨_, hmem, hpred⟩
    exact Option.isSome_iff_exists.mp hsome
  have hdup : isRecentDuplicate now addr req.reportType m req.patente = some p2.2 := by
    unfold isRecentDuplicate
    simp only [hp2]
  have hsat := List.find?_some hp2
  unfold dupMatches at hsat
  simp only [Bool.and_eq_true, decide_eq_true_eq] at hsat
  have hfresh2 : p2.2.timestamp > now - twelveHoursMs := hsat.2
  have hmem2 : p2 ∈ m := List.mem_of_find?_eq_some hp2
  have hclass : classifyRequest now m photoCount req = .duplicate p2.2.solicitudNumber := by
    simp [classifyRequest, haddr, hvalid, hdup]
  refine ⟨p2.2, hdup, hfresh2, ⟨p2.1, hmem2⟩, hclass, ?_⟩
  intro mention
  have hlit1 : ofString " en las últimas 12 horas (#" =
      ofString " en las últimas 12 horas (" ++ ofString "#" := by decide
  have hlit2 : ofString ").\n" = ofString ")" ++ ofString ".\n" := by decide
  have hcore : duplicateNoticeCore mention addr req.reportType p2.2.solicitudNumber =
      (mention ++ ofString " Ya mandé una solicitud de " ++
        reportLabelForDupe req.reportType ++ ofString " para " ++ addr ++
        ofString " en las últimas 12 horas (") ++
      (ofString "#" ++ p2.2.solicitudNumber ++ ofString ")") ++
      (ofString ".\n" ++ dupeUrl p2.2.solicitudNumber) := by
    simp [duplicateNoticeCore, hlit1, hlit2, List.append_assoc]
  have hcontains : containsSub
      (duplicateNoticeCore mention addr req.reportType p2.2.solicitudNumber)
      (ofString "#" ++ p2.2.solicitudNumber ++ ofString ")") = true := by
    rw [hcore]
    exact containsSub_of_parts _ _ _
  have hrev : (ofString "#" ++ p2.2.solicitudNumber ++ ofString ")").reverse =
      ')' :: (p2.2.solicitudNumber.reverse ++ ofString "#") := by
    simp [ofString, List.reverse_append]
  exact containsSub_strTrim _ _ '#' (p2.2.solicitudNumber ++ ofString ")")
    (by simp [ofString]) (by decide) ')' (p2.2.solicitudNumber.reverse ++ ofString "#")
    hrev (by decide) hcontains

/-- Claim C1: (a) loading the append-only reports log keys each record by
`normalizedAddress|reportType` (with `|PLATE` appended for vehicle
records) and on key collision keeps the record with the greatest
timestamp; (b) a persisted record under the candidate's key with a
timestamp within the last 12 hours blocks the candidate from queueing —
it is classified as a duplicate — and the prior record's solicitud number
is quoted (after `#`) in the message to the user. -/
theorem dedup_index_blocks (lines : List CsvRecord) (k : Str) (e : Entry)
    (now : Int) (m : ProcessedMap) (req : ExtractedRequest) (photoCount : Nat)
    (keyPat : Option Str) (e1 : Entry) (addr : Str) :
    (mapGet (getProcessedSolicitudes lines) k = some e →
      (∃ r ∈ lines, recordKey r = k ∧ e = ⟨r.timestamp, r.solicitudNumber⟩) ∧
      (∀ r ∈ lines, recordKey r = k → r.timestamp ≤ e.timestamp)) ∧
    (req.address = some addr → isValidAddress (some addr) = true →
      '|' ∉ normalizeAddressForComparison addr →
      '|' ∉ strOrElse req.reportType strRecoleccion →
      (∀ p, keyPat = some p → p.isEmpty = false ∧ '|' ∉ p) →
      patSkipCheck req.patente keyPat = false →
      (entryKey (normalizeAddressForComparison addr)
        (strOrElse req.reportType strRecoleccion) keyPat, e1) ∈ m →
      e1.timestamp > now - twelveHoursMs →
      ∃ e2, isRecentDuplicate now addr req.reportType m req.patente = some e2 ∧
        e2.timestamp > now - twelveHoursMs ∧ (∃ k2, (k2, e2) ∈ m) ∧
        classifyRequest now m photoCount req = .duplicate e2.solicitudNumber ∧
        ∀ mention, containsSub
          (duplicateNotice mention addr req.reportType e2.solicitudNumber)
          (ofString "#" ++ e2.solicitudNumber ++ ofString ")") = true) :=
  ⟨getProcessed_most_recent lines k e,
   fun h1 h2 h3 h4 h5 h6 h7 h8 =>
     dup_hit_blocks now m req photoCount keyPat e1 addr h1 h2 h3 h4 h5 h6 h7 h8⟩

/-- Witness for C1: two colliding CSV lines keep the later record, and a
fresh hit under the same key blocks a concrete candidate, quoting the
prior number. -/
theorem dedup_index_blocks_witness :
    ((∃ r ∈ [csvRec1, csvRec2], recordKey r = recordKey csvRec2 ∧
        (⟨2000, ofString "0100300"⟩ : Entry) = ⟨r.timestamp, r.solicitudNumber⟩) ∧
      (∀ r ∈ [csvRec1, csvRec2], recordKey r = recordKey csvRec2 →
        r.timestamp ≤ (⟨2000, ofString "0100300"⟩ : Entry).timestamp)) ∧
    (∃ e2, isRecentDuplicate 3000 (ofString "Pasteur 415") none procMapW none = some e2 ∧
      e2.timestamp > 3000 - twelveHoursMs ∧ (∃ k2, (k2, e2) ∈ procMapW) ∧
      classifyRequest 3000 procMapW 0 pasteurCandidate = .duplicate e2.solicitudNumber ∧
      ∀ mention, containsSub
        (duplicateNotice mention (ofString "Pasteur 415") none e2.solicitudNumber)
        (ofString "#" ++ e2.solicitudNumber ++ ofString ")") = true) :=
  ⟨(dedup_index_blocks [csvRec1, csvRec2] (recordKey csvRec2) ⟨2000, ofString "0100300"⟩
      3000 procMapW pasteurCandidate 0 none ⟨2000, ofString "0100300"⟩
      (ofString "Pasteur 415")).1 (by decide),
   (dedup_index_blocks [csvRec1, csvRec2] (recordKey csvRec2) ⟨2000, ofString "0100300"⟩
      3000 procMapW pasteurCandidate 0 none ⟨2000, ofString "0100300"⟩
      (ofString "Pasteur 415")).2 rfl (by decide) (by decide) (by decide)
      (fun p hp => by cases hp) rfl (by decide) (by decide)⟩

end Bot
